import Mathlib

/-!
Verification of the Claude-Skills repository's command-line tools.

This file gives a shallow embedding, in Lean 4, of the parts of the
repository's Python scripts that the specification's testable properties
talk about:

* `scripts/cross_platform_validator.py` : the frontmatter / openai.yaml
  parsers and `validate_skill`;
* `scripts/skills_index_builder.py` : `parse_yaml_frontmatter`;
* `scripts/pipeline_analyzer.py` : `analyze_workflow_file` and `main`;
* `scripts/claudemd_optimizer.py` : `analyze_claudemd` and its helpers;
* `scripts/skill_scaffolder.py` : `create_skill_directory`;
* `scripts/skill-installer.py` : `cmd_install` / `cmd_uninstall`.

Modelling conventions, used uniformly below:

* Python `str` values are modelled as Lean `String` at interfaces and as
  `List Char` inside the scanning functions (Lean `String.data`).  Python
  string methods (`strip`, `split`, `startswith`, `in`, `count`, ...) are
  re-implemented over `List Char` so that everything reduces by `decide`.
  `str.strip()` and friends strip the ASCII whitespace characters
  recognised by `Char.isWhitespace`; the scripts only ever see ASCII
  workflow/markdown text, where the two notions agree.
* Python regular expressions are modelled either by a small total
  regular-expression engine (Brzozowski derivatives) or, for the anchored
  `key: value` patterns, by direct scanners; `\w` is modelled as ASCII
  `[A-Za-z0-9_]`.
* The file system is modelled as a finite association list from paths
  (lists of components) to entries.  A file's text is `Option String`:
  `none` models a file that is not UTF-8 decodable (the scripts catch
  `UnicodeDecodeError` on such files).  Reads of existing files are
  assumed to succeed (no `OSError` modelling).
* Python `dict`s are association lists with first-occurrence ordering and
  in-place update, matching CPython's insertion-ordered dicts.
* Wall-clock values (timestamps) are passed in as opaque arguments.
-/

/-! ## Python string primitives over lists of characters -/

/-- Single quote character, written via its code point. -/
def squoteC : Char := Char.ofNat 39

/-- Double quote character, written via its code point. -/
def dquoteC : Char := Char.ofNat 34

/-- The string consisting of one single-quote character. -/
def squoteS : String := String.mk [squoteC]

/-- Python `needle is a prefix of hay` (used to implement `startswith`). -/
def prefixAt : List Char → List Char → Bool
  | [], _ => true
  | _ :: _, [] => false
  | p :: ps, c :: cs => p = c && prefixAt ps cs

/-- Python `hay.startswith(pre)`. -/
def pyStartsWith (hay pre : List Char) : Bool := prefixAt pre hay

/-- Python `hay.endswith(suf)`. -/
def pyEndsWith (hay suf : List Char) : Bool := prefixAt suf.reverse hay.reverse

/-- Python `needle in hay` (substring containment). -/
def containsSub : List Char → List Char → Bool
  | hay, needle =>
    match hay with
    | [] => prefixAt needle []
    | _ :: tl => prefixAt needle hay || containsSub tl needle

/-- Python `line.lstrip()`. -/
def pyLStrip (cs : List Char) : List Char := cs.dropWhile Char.isWhitespace

/-- Python `line.rstrip()`. -/
def pyRStrip (cs : List Char) : List Char :=
  (cs.reverse.dropWhile Char.isWhitespace).reverse

/-- Python `line.strip()`. -/
def pyStrip (cs : List Char) : List Char := pyRStrip (pyLStrip cs)

/-- Python `line.strip(chars)`: strip any of the given characters from both ends. -/
def pyStripChars (cs : List Char) (chars : List Char) : List Char :=
  ((cs.dropWhile (chars.contains ·)).reverse.dropWhile (chars.contains ·)).reverse

/-- Python `line.rstrip(chars)`. -/
def pyRStripChars (cs : List Char) (chars : List Char) : List Char :=
  (cs.reverse.dropWhile (chars.contains ·)).reverse

/-- Number of leading whitespace characters: `len(line) - len(line.lstrip())`. -/
def indentOf (cs : List Char) : Nat := (cs.takeWhile Char.isWhitespace).length

/-- Python `text.split(sep)` for a single-character separator: keeps empty pieces. -/
def splitChar (sep : Char) : List Char → List (List Char)
  | [] => [[]]
  | c :: cs =>
    let r := splitChar sep cs
    if c = sep then [] :: r
    else
      match r with
      | [] => [[c]]
      | h :: t => (c :: h) :: t

/-- Python `text.splitlines()` restricted to `\n` line endings: like splitting
on `\n` but without a trailing empty piece. -/
def pySplitLines (cs : List Char) : List (List Char) :=
  let r := splitChar '\n' cs
  match r.getLast? with
  | some [] => r.dropLast
  | _ => r

/-- Python `text.split()` with no argument: maximal runs of non-whitespace. -/
def pyWords : List Char → List (List Char)
  | [] => []
  | c :: cs =>
    if c.isWhitespace then pyWords cs
    else
      match pyWords cs with
      | [] => [[c]]
      | h :: t =>
        match cs with
        | [] => [[c]]
        | d :: _ => if d.isWhitespace then [c] :: h :: t else (c :: h) :: t

/-- Python `hay.split(sep, 1)[1]` helper: the part of `cs` after the first
occurrence of character `sep` (`none` if `sep` does not occur). -/
def afterFirstChar (sep : Char) : List Char → Option (List Char)
  | [] => none
  | c :: cs => if c = sep then some cs else afterFirstChar sep cs

/-- Python lower-casing, ASCII only (the scripts lowercase ASCII text). -/
def pyLower (cs : List Char) : List Char := cs.map Char.toLower

/-- Case-insensitive substring test: Python `re.search(lit, s, re.IGNORECASE)`
for a literal pattern `lit` given in lowercase. -/
def containsSubCI (hay needle : List Char) : Bool := containsSub (pyLower hay) needle

/-- Non-overlapping occurrence counting, Python `hay.count(needle)` for a
nonempty needle; the auxiliary runs on fuel bounded by the text length. -/
def countSubAux (needle : List Char) : Nat → List Char → Nat
  | 0, _ => 0
  | _, [] => 0
  | fuel + 1, hay@(_ :: tl) =>
    if prefixAt needle hay then
      1 + countSubAux needle fuel (hay.drop needle.length)
    else countSubAux needle fuel tl

/-- Python `hay.count(needle)` (nonempty needle). -/
def countSub (hay needle : List Char) : Nat := countSubAux needle hay.length hay

/-- First index at or after `start` where `needle` occurs: Python
`hay.find(needle, start)` returning `none` for `-1`. -/
def findSubFromAux (needle : List Char) : List Char → Nat → Option Nat
  | [], i => if prefixAt needle [] then some i else none
  | hay@(_ :: tl), i => if prefixAt needle hay then some i else findSubFromAux needle tl (i + 1)

/-- Python `hay.find(needle, start)` (as an `Option`). -/
def findSubFrom (hay needle : List Char) (start : Nat) : Option Nat :=
  match findSubFromAux needle (hay.drop start) start with
  | some i => some i
  | none => none

/-- Python slice `cs[a:b]`. -/
def pySlice (cs : List Char) (a b : Nat) : List Char := (cs.take b).drop a

/-- ASCII model of the regex class `\w`: letters, digits, underscore. -/
def isWordChar (c : Char) : Bool := c.isAlphanum || c = '_'

/-- Stable insertion used by `sortStable`: an element is placed after every
earlier element that compares `le` to it, so equal elements keep their
original order (CPython's `list.sort` is stable). -/
def insertStable {α : Type} (le : α → α → Bool) (x : α) : List α → List α
  | [] => [x]
  | y :: ys => if le x y then x :: y :: ys else y :: insertStable le x ys

/-- Stable sort (insertion sort) modelling Python's stable `sort`/`sorted`
with a boolean `le` that must be a total preorder on the keys used. -/
def sortStable {α : Type} (le : α → α → Bool) : List α → List α
  | [] => []
  | x :: xs => insertStable le x (sortStable le xs)

/-! ## Association lists with Python-dict semantics -/

/-- Python `d[k] = v`: replace in place if the key is present, else append. -/
def setA {α : Type} : List (String × α) → String → α → List (String × α)
  | [], k, v => [(k, v)]
  | (k', v') :: tl, k, v => if k' = k then (k, v) :: tl else (k', v') :: setA tl k v

/-- Python `d.get(k)`: the first binding of `k`. -/
def getA {α : Type} : List (String × α) → String → Option α
  | [], _ => none
  | (k', v') :: tl, k => if k' = k then some v' else getA tl k

/-- Python `k in d`. -/
def memA {α : Type} (l : List (String × α)) (k : String) : Bool := (getA l k).isSome

/-- Python `del d[k]` (removes every binding of `k`; bindings are unique
whenever the list was built with `setA`). -/
def eraseA {α : Type} (l : List (String × α)) (k : String) : List (String × α) :=
  l.filter (fun kv => kv.1 ≠ k)

/-- Python truthiness of `d.get(k)` for string-valued dicts:
the key is bound to a nonempty string. -/
def getTruthy (l : List (String × String)) (k : String) : Bool :=
  match getA l k with
  | some v => v ≠ ""
  | none => false

/-! ## The anchored regex of the frontmatter parsers

Both frontmatter parsers match stripped lines against the Python pattern
matching a word-character key followed by a colon and the rest of the line:
group 1 is `\w[\w-]*` (maximal munch; the following characters `\s*:` cannot
extend it, so no backtracking arises) and group 2 is the remainder with its
leading whitespace removed (`\s*` is greedy and `.` cannot match whitespace
any earlier than the remainder's first non-space character would allow;
concretely group 2 is the text after the colon with leading whitespace
dropped). -/

/-- Matcher for the Python key/value line pattern used by the frontmatter
parsers. Returns `(group 1, group 2)` on the *stripped* line. -/
def matchKeyValue (cs : List Char) : Option (List Char × List Char) :=
  match cs with
  | [] => none
  | c :: rest =>
    if isWordChar c then
      let isKeyChar : Char → Bool := fun d => isWordChar d || d = '-'
      let keyRest := rest.takeWhile isKeyChar
      let after := rest.dropWhile isKeyChar
      match after.dropWhile Char.isWhitespace with
      | ':' :: v => some (c :: keyRest, v.dropWhile Char.isWhitespace)
      | _ => none
    else none

/-- Python quote stripping used by both parsers: if the value starts and ends
with the same (single or double) quote character, drop one character from
each end (`val[1:-1]`). -/
def stripQuotes (cs : List Char) : List Char :=
  match cs.head?, cs.getLast? with
  | some h, some l =>
    if (h = dquoteC && l = dquoteC) || (h = squoteC && l = squoteC) then
      (cs.drop 1).dropLast
    else cs
  | _, _ => cs

/-- The three-dash frontmatter delimiter. -/
def threeDashes : List Char := ['-', '-', '-']

/-! ## parse_yaml_frontmatter_simple (cross_platform_validator.py) -/

/-- Loop state of `parse_yaml_frontmatter_simple`. -/
structure FMState where
  result : List (String × String)
  current_key : Option String
  current_value : List Char

/-- One iteration of the frontmatter line loop in
`parse_yaml_frontmatter_simple`. -/
def fmStep (st : FMState) (line : List Char) : FMState :=
  let stripped := pyStrip line
  if stripped.isEmpty || pyStartsWith stripped ['#'] then st
  else
    let indent := indentOf line
    if indent = 0 then
      match matchKeyValue stripped with
      | some (k, v) =>
        let result :=
          match st.current_key with
          | some ck => if st.current_value ≠ [] then setA st.result ck (String.mk (pyStrip st.current_value)) else st.result
          | none => st.result
        { result := result
          current_key := some (String.mk k)
          current_value := stripQuotes (pyStrip v) }
      | none => st
    else
      match st.current_key with
      | some ck =>
        if ck = "description" then
          { st with current_value := st.current_value ++ ' ' :: stripped }
        else if containsSub stripped [':'] then
          if ¬ memA st.result ck then { st with result := setA st.result ck "__nested__" } else st
        else st
      | none => st

/-- Final flush of `parse_yaml_frontmatter_simple`: record the pending key. -/
def fmFinish (st : FMState) : List (String × String) :=
  match st.current_key with
  | some ck => if st.current_value ≠ [] then setA st.result ck (String.mk (pyStrip st.current_value)) else st.result
  | none => st.result

/-- Whether some line after the first one strips to the closing delimiter. -/
def hasClosingDelim (lines : List (List Char)) : Bool :=
  (lines.drop 1).any (fun l => pyStrip l = threeDashes)

/-- The frontmatter body: the lines strictly between line 0 and the first
closing delimiter line (`lines[1:end_index]`). -/
def fmBody (lines : List (List Char)) : List (List Char) :=
  (lines.drop 1).takeWhile (fun l => pyStrip l ≠ threeDashes)

/-- Embedding of `parse_yaml_frontmatter_simple` from
`cross_platform_validator.py`: returns the key/value mapping and the
validity flag. -/
def parse_yaml_frontmatter_simple (content : String) : List (String × String) × Bool :=
  if ¬ pyStartsWith content.data threeDashes then ([], false)
  else
    let lines := splitChar '\n' content.data
    if ¬ hasClosingDelim lines then ([], false)
    else
      let st := (fmBody lines).foldl fmStep ⟨[], none, []⟩
      (fmFinish st, true)

/-! ## parse_yaml_frontmatter (skills_index_builder.py) -/

/-- Values of the index builder's frontmatter dictionary: flat strings or a
one-level nested string dictionary. -/
inductive FMVal where
  | str (s : String)
  | dict (d : List (String × String))
deriving DecidableEq, Repr

/-- Loop state of `parse_yaml_frontmatter` (the index-builder variant). -/
structure FM2State where
  result : List (String × FMVal)
  current_key : Option String
  current_value : List Char
  nested_dict : List (String × String)
  nested_key : Option String

/-- Saving the previous key when a new top-level key is met, mirroring the
`if current_key: ...` block of `parse_yaml_frontmatter`. -/
def fm2Save (st : FM2State) : FM2State :=
  match st.current_key with
  | none => st
  | some ck =>
    if st.nested_key.isSome && st.nested_dict ≠ [] then
      { st with result := setA st.result ck (.dict st.nested_dict), nested_dict := [], nested_key := none }
    else if st.current_value ≠ [] then
      { st with result := setA st.result ck (.str (String.mk (pyStrip st.current_value))) }
    else st

/-- One iteration of the line loop in `parse_yaml_frontmatter`. -/
def fm2Step (st : FM2State) (line : List Char) : FM2State :=
  let stripped := pyStrip line
  if stripped.isEmpty || pyStartsWith stripped ['#'] then st
  else
    let indent := indentOf line
    if indent = 0 then
      match matchKeyValue stripped with
      | some (k, v) =>
        let st := fm2Save st
        let val := pyStrip v
        if val = ['>'] || val = ['|'] || val = ['|', '-'] || val = ['>', '-'] then
          { st with current_key := some (String.mk k), current_value := [] }
        else if val ≠ [] then
          { st with current_key := some (String.mk k), current_value := stripQuotes val }
        else
          { st with current_key := some (String.mk k), current_value := [],
                    nested_key := some (String.mk k) }
      | none => st
    else
      match st.nested_key, matchKeyValue stripped with
      | some _, some (nk, nv) =>
        { st with nested_dict := setA st.nested_dict (String.mk nk) (String.mk (stripQuotes (pyStrip nv))) }
      | _, _ =>
        match st.current_key with
        | some _ =>
          if st.current_value ≠ [] then { st with current_value := st.current_value ++ ' ' :: stripped }
          else { st with current_value := stripped }
        | none => st

/-- Final flush of `parse_yaml_frontmatter`. -/
def fm2Finish (st : FM2State) : List (String × FMVal) :=
  match st.current_key with
  | none => st.result
  | some ck =>
    if st.nested_key.isSome && st.nested_dict ≠ [] then
      setA st.result ck (.dict st.nested_dict)
    else if st.current_value ≠ [] then
      setA st.result ck (.str (String.mk (pyStrip st.current_value)))
    else st.result

/-- Embedding of `parse_yaml_frontmatter` from `skills_index_builder.py`. -/
def parse_yaml_frontmatter (content : String) : List (String × FMVal) :=
  if ¬ pyStartsWith content.data threeDashes then []
  else
    let lines := splitChar '\n' content.data
    if ¬ hasClosingDelim lines then []
    else
      fm2Finish ((fmBody lines).foldl fm2Step ⟨[], none, [], [], none⟩)

/-! ## File-system model for the validator and scaffolder -/

/-- Data carried by a regular file: its decoded text (`none` when the bytes
are not valid UTF-8, in which case Python's `open(..., encoding="utf-8")`
raises `UnicodeDecodeError` on read) and its size in bytes. -/
structure FileData where
  text : Option String
  size : Nat
deriving DecidableEq, Repr

/-- A file-system entry: a regular file or a directory. -/
inductive FSEntry where
  | file (data : FileData)
  | dir
deriving DecidableEq, Repr

/-- A directory tree, as a finite map from relative paths (component lists)
to entries; the list order models the traversal order of `Path.rglob`. -/
structure VFS where
  entries : List (List String × FSEntry)
deriving DecidableEq, Repr

/-- Look up the entry at a path. -/
def VFS.lookup (fs : VFS) (p : List String) : Option FSEntry :=
  (fs.entries.find? (fun e => e.1 = p)).map (·.2)

/-- Python `path.is_file()`. -/
def VFS.isFileAt (fs : VFS) (p : List String) : Bool :=
  match fs.lookup p with
  | some (.file _) => true
  | _ => false

/-- Python `path.is_dir()`: an explicit directory entry, or an implied
ancestor directory of some entry. -/
def VFS.isDirAt (fs : VFS) (p : List String) : Bool :=
  match fs.lookup p with
  | some .dir => true
  | some (.file _) => false
  | none => fs.entries.any (fun e => e.1.take p.length = p && e.1.length > p.length)

/-- Python `path.exists()`. -/
def VFS.existsAt (fs : VFS) (p : List String) : Bool :=
  fs.isFileAt p || fs.isDirAt p

/-- The decoded text of the file at a path (`none` if absent, not a file, or
not decodable). -/
def VFS.readText (fs : VFS) (p : List String) : Option String :=
  match fs.lookup p with
  | some (.file d) => d.text
  | _ => none

/-- All regular files of the tree, in traversal order (`Path.rglob("*")`). -/
def VFS.allFiles (fs : VFS) : List (List String × FileData) :=
  fs.entries.filterMap (fun e =>
    match e.2 with
    | .file d => some (e.1, d)
    | .dir => none)

/-- The file names directly inside directory `p` (used for `glob` patterns). -/
def VFS.childFileNames (fs : VFS) (p : List String) : List String :=
  fs.allFiles.filterMap (fun e =>
    match e.1.drop p.length with
    | [name] => if e.1.take p.length = p then some name else none
    | _ => none)

/-- Entry names (files and directories) directly inside directory `p`
(Python `path.iterdir()`). -/
def VFS.childNames (fs : VFS) (p : List String) : List (String × FSEntry) :=
  fs.entries.filterMap (fun e =>
    match e.1.drop p.length with
    | [name] => if e.1.take p.length = p then some (name, e.2) else none
    | _ => none)

/-- Python `pathlib`'s `Path(name).suffix`: the last dot-extension of a name,
empty when the only dot is leading or trailing. -/
def pathSuffix (name : String) : String :=
  let cs := name.data
  let i := cs.length - 1 - (cs.reverse.takeWhile (· ≠ '.')).length
  if cs.reverse.all (· ≠ '.') then ""
  else if 0 < i ∧ i < cs.length - 1 then String.mk (cs.drop i) else ""

/-- The last component of a path. -/
def lastComponent (p : List String) : String := p.getLast?.getD ""

/-! ## parse_openai_yaml_simple (cross_platform_validator.py) -/

/-- Loop state of `parse_openai_yaml_simple`. -/
structure OYState where
  result : List (String × String)
  current_key : Option String
  current_value : List Char
  tools_list : List (List (String × String))
  in_tools : Bool
  current_tool : List (String × String)

/-- Record a continuation line into the first empty `description`/`command`
field of the current tool (the trailing `elif current_tool:` branch). -/
def oyToolContinuation (tool : List (String × String)) (stripped : List Char) :
    List (String × String) :=
  if getA tool "description" = some "" then setA tool "description" (String.mk stripped)
  else if getA tool "command" = some "" then setA tool "command" (String.mk stripped)
  else tool

/-- One iteration of the line loop in `parse_openai_yaml_simple`. -/
def oyStep (st : OYState) (line : List Char) : OYState :=
  let stripped := pyStrip line
  if stripped.isEmpty || pyStartsWith stripped ['#'] then st
  else
    let indent := indentOf line
    match (if indent = 0 then matchKeyValue stripped else none) with
    | some (k, v) =>
      let result :=
        match st.current_key with
        | some ck =>
          if st.current_value ≠ [] && ck ≠ "tools" then
            setA st.result ck (String.mk (pyStrip st.current_value))
          else st.result
        | none => st.result
      let tools_list :=
        if st.in_tools && st.current_tool ≠ [] then st.tools_list ++ [st.current_tool]
        else st.tools_list
      let key := String.mk k
      if key = "tools" then
        { result := result, current_key := some key, current_value := [],
          tools_list := tools_list, in_tools := true, current_tool := [] }
      else
        let val := pyStrip v
        let cv := if val = ['>'] || val = ['|'] || val = ['|', '-'] || val = ['>', '-'] then [] else val
        { result := result, current_key := some key, current_value := cv,
          tools_list := tools_list, in_tools := false, current_tool := [] }
    | none =>
      if st.in_tools then
        if pyStartsWith stripped "- name:".data then
          let tools_list :=
            if st.current_tool ≠ [] then st.tools_list ++ [st.current_tool] else st.tools_list
          let nm := String.mk (pyStrip ((afterFirstChar ':' stripped).getD []))
          { st with tools_list := tools_list, current_tool := [("name", nm)] }
        else if containsSub stripped [':'] && st.current_tool ≠ [] then
          match afterFirstChar ':' stripped with
          | some rest =>
            let k := String.mk (pyStrip (stripped.takeWhile (· ≠ ':')))
            let v := pyStrip rest
            if v = ['>'] || v = ['|'] then
              { st with current_tool := setA st.current_tool k "" }
            else if v ≠ [] then
              { st with current_tool := setA st.current_tool k (String.mk v) }
            else st
          | none => st
        else if st.current_tool ≠ [] then
          { st with current_tool := oyToolContinuation st.current_tool stripped }
        else st
      else if indent > 0 && st.current_key.isSome then
        if st.current_value ≠ [] then { st with current_value := st.current_value ++ ' ' :: stripped }
        else { st with current_value := stripped }
      else st

/-- Result of `parse_openai_yaml_simple`: string fields plus the tools list. -/
structure OYaml where
  fields : List (String × String)
  tools : List (List (String × String))
deriving DecidableEq, Repr

/-- Embedding of `parse_openai_yaml_simple` from
`cross_platform_validator.py`; the boolean is `bool(result)`. -/
def parse_openai_yaml_simple (content : String) : OYaml × Bool :=
  let lines := splitChar '\n' content.data
  let st := lines.foldl oyStep ⟨[], none, [], [], false, []⟩
  let result :=
    match st.current_key with
    | some ck =>
      if st.current_value ≠ [] && ck ≠ "tools" then
        setA st.result ck (String.mk (pyStrip st.current_value))
      else st.result
    | none => st.result
  let tools_list :=
    if st.in_tools && st.current_tool ≠ [] then st.tools_list ++ [st.current_tool]
    else st.tools_list
  (⟨result, tools_list⟩, result ≠ [] || tools_list ≠ [])

/-! ## validate_skill (cross_platform_validator.py) -/

/-- One validation check result (class `ValidationResult`). -/
structure ValidationResult where
  check : String
  platform : String
  passed : Bool
  message : String
  severity : String
deriving DecidableEq, Repr

/-- Constructor for `ValidationResult`; call sites that omit `severity` in
Python get the default `"error"`, which the embedding passes explicitly. -/
def VR (check platform : String) (passed : Bool) (message severity : String) :
    ValidationResult :=
  ⟨check, platform, passed, message, severity⟩

/-- The frontmatter mapping `validate_skill` works with: parsed from
`SKILL.md` when it exists and decodes, empty otherwise. -/
def frontmatterOf (fs : VFS) : List (String × String) :=
  if fs.isFileAt ["SKILL.md"] then
    match fs.readText ["SKILL.md"] with
    | some content => (parse_yaml_frontmatter_simple content).1
    | none => []
  else []

/-- The parsed `agents/openai.yaml` data (empty on absence or decode error). -/
def yamlOf (fs : VFS) : OYaml :=
  if fs.isFileAt ["agents", "openai.yaml"] then
    match fs.readText ["agents", "openai.yaml"] with
    | some content => (parse_openai_yaml_simple content).1
    | none => ⟨[], []⟩
  else ⟨[], []⟩

/-- Check 1: `SKILL.md` exists. -/
def check_skill_md (fs : VFS) : List ValidationResult :=
  if fs.isFileAt ["SKILL.md"] then
    [VR "skill_md_exists" "claude-code" true "SKILL.md exists" "error"]
  else
    [VR "skill_md_exists" "claude-code" false
      "SKILL.md not found - required for Claude Code" "error"]

/-- Check 2: valid YAML frontmatter (only run when `SKILL.md` is a file). -/
def check_frontmatter (fs : VFS) : List ValidationResult :=
  if fs.isFileAt ["SKILL.md"] then
    match fs.readText ["SKILL.md"] with
    | some content =>
      if (parse_yaml_frontmatter_simple content).2 then
        [VR "valid_frontmatter" "claude-code" true "Valid YAML frontmatter found" "error"]
      else
        [VR "valid_frontmatter" "claude-code" false
          "No valid YAML frontmatter (must start with --- and end with ---)" "error"]
    | none =>
      [VR "valid_frontmatter" "claude-code" false "Cannot read SKILL.md: UnicodeDecodeError" "error"]
  else []

/-- Check 3: the `name` frontmatter field. -/
def check_name (fm : List (String × String)) : List ValidationResult :=
  if getTruthy fm "name" then
    [VR "name_field" "claude-code" true
      ("Name field present: " ++ (getA fm "name").getD "") "error"]
  else
    [VR "name_field" "claude-code" false "Name field missing in frontmatter" "error"]

/-- The eight discovery patterns matched (case-insensitively) against the
description; each is a literal regex. -/
def discoveryPatterns : List (List Char) :=
  ["this skill".data, "should be used when".data, "use for".data, "use when".data,
   "analyzes".data, "generates".data, "provides".data, "automates".data]

/-- Check 4: description present and (warning-level) discovery-friendly. -/
def check_description (fm : List (String × String)) : List ValidationResult :=
  let desc := (getA fm "description").getD ""
  if desc ≠ "" then
    [VR "description_exists" "claude-code" true "Description field present" "error"] ++
    (if discoveryPatterns.any (containsSubCI desc.data ·) then
      [VR "description_format" "claude-code" true
        "Description uses discovery-friendly format" "error"]
    else
      [VR "description_format" "claude-code" false
        "Description should use third-person, discovery-friendly format" "warning"])
  else
    [VR "description_exists" "claude-code" false
      "Description field missing in frontmatter" "error"]

/-- Check 5: the `license` frontmatter field. -/
def check_license (fm : List (String × String)) : List ValidationResult :=
  if getTruthy fm "license" then
    [VR "license_field" "claude-code" true
      ("License: " ++ (getA fm "license").getD "") "error"]
  else
    [VR "license_field" "claude-code" false
      "License field missing (recommended for distribution)" "warning"]

/-- Check 6: `scripts/` directory with Python files (`glob("*.py")`). -/
def check_scripts (fs : VFS) : List ValidationResult :=
  if fs.isDirAt ["scripts"] then
    let py := (fs.childFileNames ["scripts"]).filter (fun n => pyEndsWith n.data ".py".data)
    if py.length > 0 then
      [VR "scripts_dir" "claude-code" true
        ("scripts/ directory found (" ++ toString py.length ++ " Python tool(s))") "error"]
    else
      [VR "scripts_dir" "claude-code" false
        "scripts/ directory exists but contains no Python files" "warning"]
  else
    [VR "scripts_dir" "claude-code" false
      "scripts/ directory not found (optional but recommended)" "warning"]

/-- Check 7: `references/` directory. -/
def check_references (fs : VFS) : List ValidationResult :=
  if fs.isDirAt ["references"] then
    let refs := (fs.childFileNames ["references"]).filter (fun n => pyEndsWith n.data ".md".data)
    [VR "references_dir" "claude-code" true
      ("references/ directory found (" ++ toString refs.length ++ " file(s))") "error"]
  else
    [VR "references_dir" "claude-code" false
      "references/ directory not found (optional)" "info"]

/-- Check 8: `assets/` directory. -/
def check_assets (fs : VFS) : List ValidationResult :=
  if fs.isDirAt ["assets"] then
    let cnt := ((fs.childNames ["assets"]).filter (fun e =>
      match e.2 with
      | .file _ => true
      | .dir => false)).length
    [VR "assets_dir" "claude-code" true
      ("assets/ directory found (" ++ toString cnt ++ " file(s))") "error"]
  else
    [VR "assets_dir" "claude-code" false
      "assets/ directory not found (optional)" "info"]

/-- Check 9: no `requirements.txt` dependencies.  Note the Python quirks:
a dependency line is one whose `strip()` is nonempty and whose *raw* text
does not start with `#`; an existing but empty-of-deps file yields no check
at all; and a non-decodable `requirements.txt` makes the Python function
raise (`UnicodeDecodeError` is not caught here), which is tracked separately
by `validateSkillRaises`. -/
def check_requirements (fs : VFS) : List ValidationResult :=
  if fs.isFileAt ["requirements.txt"] then
    match fs.readText ["requirements.txt"] with
    | some content =>
      let deps := (pySplitLines content.data).filter
        (fun l => pyStrip l ≠ [] && ¬ pyStartsWith l ['#'])
      if deps ≠ [] then
        [VR "no_heavy_deps" "claude-code" false
          ("requirements.txt found with " ++ toString deps.length ++
            " dependencies (skills should use standard library only)") "warning"]
      else []
    | none => []
  else
    [VR "no_heavy_deps" "claude-code" true
      "No requirements.txt (standard library only - good)" "error"]

/-- The one uncaught-exception path of `validate_skill`: reading an existing
but non-UTF-8 `requirements.txt` raises. -/
def validateSkillRaises (fs : VFS) : Bool :=
  fs.isFileAt ["requirements.txt"] && (fs.readText ["requirements.txt"]).isNone

/-- Check 10: `agents/openai.yaml` exists. -/
def check_openai_exists (fs : VFS) : List ValidationResult :=
  if fs.isFileAt ["agents", "openai.yaml"] then
    [VR "openai_yaml_exists" "codex-cli" true "agents/openai.yaml exists" "error"]
  else
    [VR "openai_yaml_exists" "codex-cli" false
      "agents/openai.yaml not found - required for Codex CLI" "error"]

/-- Check 11: `agents/openai.yaml` parses to a nonempty structure. -/
def check_openai_valid (fs : VFS) : List ValidationResult :=
  if fs.isFileAt ["agents", "openai.yaml"] then
    match fs.readText ["agents", "openai.yaml"] with
    | some content =>
      if (parse_openai_yaml_simple content).2 then
        [VR "openai_yaml_valid" "codex-cli" true
          "agents/openai.yaml has valid structure" "error"]
      else
        [VR "openai_yaml_valid" "codex-cli" false
          "agents/openai.yaml appears empty or invalid" "error"]
    | none =>
      [VR "openai_yaml_valid" "codex-cli" false
        "Cannot read agents/openai.yaml: UnicodeDecodeError" "error"]
  else []

/-- Checks 12 (name in openai.yaml) and the cross-platform name match. -/
def check_yaml_name (fs : VFS) (yaml : OYaml) (skill_name : String) : List ValidationResult :=
  if getTruthy yaml.fields "name" then
    let yname := (getA yaml.fields "name").getD ""
    [VR "yaml_name" "codex-cli" true ("Name field present: " ++ yname) "error"] ++
    (if skill_name ≠ "" && yname ≠ skill_name then
      [VR "name_match" "cross-platform" false
        ("Name mismatch: SKILL.md has " ++ squoteS ++ skill_name ++ squoteS ++
          ", openai.yaml has " ++ squoteS ++ yname ++ squoteS) "warning"]
    else
      [VR "name_match" "cross-platform" true "Skill name matches across platforms" "error"])
  else if fs.isFileAt ["agents", "openai.yaml"] then
    [VR "yaml_name" "codex-cli" false "Name field missing in agents/openai.yaml" "error"]
  else []

/-- Check 13: description in openai.yaml. -/
def check_yaml_description (fs : VFS) (yaml : OYaml) : List ValidationResult :=
  if getTruthy yaml.fields "description" then
    [VR "yaml_description" "codex-cli" true
      "Description field present in openai.yaml" "error"]
  else if fs.isFileAt ["agents", "openai.yaml"] then
    [VR "yaml_description" "codex-cli" false
      "Description field missing in agents/openai.yaml" "error"]
  else []

/-- Check 14: instructions in openai.yaml (short instructions warn). -/
def check_yaml_instructions (fs : VFS) (yaml : OYaml) : List ValidationResult :=
  if getTruthy yaml.fields "instructions" then
    let inst := (getA yaml.fields "instructions").getD ""
    if inst.length > 50 then
      [VR "yaml_instructions" "codex-cli" true
        ("Instructions field present (" ++ toString inst.length ++ " chars)") "error"]
    else
      [VR "yaml_instructions" "codex-cli" false
        ("Instructions field is very short (" ++ toString inst.length ++
          " chars) - consider adding more detail") "warning"]
  else if fs.isFileAt ["agents", "openai.yaml"] then
    [VR "yaml_instructions" "codex-cli" false
      "Instructions field missing in agents/openai.yaml" "warning"]
  else []

/-- The Python search `re.search(r"scripts/(\S+)", cmd)`: first occurrence of
the literal `scripts/` followed by at least one non-whitespace character;
group 1 is the maximal non-whitespace run after the slash. -/
def scriptsMatch : List Char → Option (List Char)
  | [] => none
  | cs@(_ :: tl) =>
    if prefixAt "scripts/".data cs then
      let run := (cs.drop 8).takeWhile (fun c => ¬ c.isWhitespace)
      if run ≠ [] then some run else scriptsMatch tl
    else scriptsMatch tl

/-- Check 15: tools in openai.yaml reference existing scripts. -/
def check_tools (fs : VFS) (yaml : OYaml) : List ValidationResult :=
  if yaml.tools ≠ [] then
    yaml.tools.flatMap (fun tool =>
      let cmd := (getA tool "command").getD ""
      let nm := (getA tool "name").getD "unknown"
      match scriptsMatch cmd.data with
      | some script =>
        if fs.isFileAt ["scripts", String.mk script] then
          [VR ("tool_script_" ++ nm) "codex-cli" true
            ("Tool " ++ squoteS ++ nm ++ squoteS ++ " references existing script") "error"]
        else
          [VR ("tool_script_" ++ nm) "codex-cli" false
            ("Tool " ++ squoteS ++ nm ++ squoteS ++ " references missing script: " ++
              String.mk script) "error"]
      | none => [])
  else []

/-- Check 16: every `.md`/`.yaml`/`.yml`/`.py` file decodes as UTF-8 (the
first failing file, in traversal order, is reported and the loop breaks;
the `for ... else` arm reports success). -/
def check_utf8 (fs : VFS) : List ValidationResult :=
  let textFiles := fs.allFiles.filter (fun e =>
    [".md", ".yaml", ".yml", ".py"].contains (pathSuffix (lastComponent e.1)))
  match textFiles.find? (fun e => e.2.text.isNone) with
  | some e =>
    [VR "utf8_encoding" "cross-platform" false
      ("File not UTF-8 encoded: " ++ String.intercalate "/" e.1) "error"]
  | none =>
    [VR "utf8_encoding" "cross-platform" true "All text files are UTF-8 encoded" "error"]

/-- Check 17: total size below 1 MB.  `size_kb < 1024` on the Python float
`total_size / 1024` is exact and equivalent to `total_size < 1048576` for
any realistic size (below 2^53 bytes).  The human-readable message renders
the size in bytes rather than reproducing float formatting. -/
def check_size (fs : VFS) : List ValidationResult :=
  let total := (fs.allFiles.map (fun e => e.2.size)).sum
  if total < 1048576 then
    [VR "skill_size" "cross-platform" true
      ("Skill size: " ++ toString total ++ " bytes (under 1 MB - good)") "error"]
  else
    [VR "skill_size" "cross-platform" false
      ("Skill size: " ++ toString total ++ " bytes (over 1 MB - consider reducing)") "warning"]

/-- The skill name reported: the frontmatter `name` when present, else the
directory name. -/
def skillNameOf (fs : VFS) (dirName : String) : String :=
  if getTruthy (frontmatterOf fs) "name" then (getA (frontmatterOf fs) "name").getD dirName
  else dirName

/-- All checks of `validate_skill`, in program order. -/
def validateSkillChecks (fs : VFS) (dirName : String) : List ValidationResult :=
  check_skill_md fs ++ check_frontmatter fs ++ check_name (frontmatterOf fs) ++
  check_description (frontmatterOf fs) ++ check_license (frontmatterOf fs) ++
  check_scripts fs ++ check_references fs ++ check_assets fs ++
  check_requirements fs ++ check_openai_exists fs ++ check_openai_valid fs ++
  check_yaml_name fs (yamlOf fs) (skillNameOf fs dirName) ++
  check_yaml_description fs (yamlOf fs) ++ check_yaml_instructions fs (yamlOf fs) ++
  check_tools fs (yamlOf fs) ++ check_utf8 fs ++ check_size fs

/-- The report's summary block. -/
structure VSummary where
  total_checks : Nat
  passed : Nat
  errors : Nat
  warnings : Nat
  info : Nat
deriving DecidableEq, Repr

/-- The validation report returned by `validate_skill` (the absolute
`skill_path` string is not modelled). -/
structure VReport where
  skill_name : String
  compatible : Bool
  summary : VSummary
  checks : List ValidationResult
deriving DecidableEq, Repr

/-- The `compatible` verdict computed from the checks at the end of
`validate_skill`: strict mode also requires zero failed warnings. -/
def compatibleOf (checks : List ValidationResult) (strict : Bool) : Bool :=
  if strict then
    (checks.filter (fun c => !c.passed && c.severity == "error")).length = 0 &&
    (checks.filter (fun c => !c.passed && c.severity == "warning")).length = 0
  else
    ((checks.filter (fun c => !c.passed && c.severity == "error")).length = 0 : Bool)

/-- The summary block computed from the checks. -/
def summaryOf (checks : List ValidationResult) : VSummary :=
  ⟨checks.length,
   (checks.filter (fun c => c.passed)).length,
   (checks.filter (fun c => !c.passed && c.severity == "error")).length,
   (checks.filter (fun c => !c.passed && c.severity == "warning")).length,
   (checks.filter (fun c => !c.passed && c.severity == "info")).length⟩

/-- Embedding of `validate_skill` from `cross_platform_validator.py`,
rooted at the skill directory (whose base name is `dirName`).  Runs that
would raise in Python are flagged by `validateSkillRaises`. -/
def validate_skill (fs : VFS) (dirName : String) (strict : Bool) : VReport :=
  { skill_name := skillNameOf fs dirName
    compatible := compatibleOf (validateSkillChecks fs dirName) strict
    summary := summaryOf (validateSkillChecks fs dirName)
    checks := validateSkillChecks fs dirName }

/-- Severities are drawn from the three-valued enumeration. -/
def sevOK (c : ValidationResult) : Prop :=
  c.severity = "error" ∨ c.severity = "warning" ∨ c.severity = "info"

/-! ## pipeline_analyzer.py : analyze_workflow_file -/

/-- Left brace character, written via its code point. -/
def lbraceC : Char := Char.ofNat 123

/-- An optimization finding (class `Finding`). -/
structure Finding where
  severity : String
  category : String
  title : String
  description : String
  recommendation : String
  estimated_savings : Option String
deriving DecidableEq, Repr

/-- Join lines with a newline (Python `"\n".join`). -/
def joinNL : List (List Char) → List Char
  | [] => []
  | [l] => l
  | l :: ls => l ++ '\n' :: joinNL ls

/-- Loop state of `_extract_jobs`; `stopped` models the `break` out of the
jobs section. -/
structure EJState where
  jobs : List (String × List Char)
  in_jobs : Bool
  current_job : Option String
  current_lines : List (List Char)
  job_indent : Nat
  stopped : Bool

/-- One iteration of the line loop in `_extract_jobs`. -/
def ejStep (st : EJState) (line : List Char) : EJState :=
  if st.stopped then st
  else
    let stripped := pyLStrip line
    let indent := line.length - stripped.length
    if pyStartsWith stripped "jobs:".data then
      { st with in_jobs := true, job_indent := indent + 2 }
    else if ¬ st.in_jobs then st
    else if indent = st.job_indent && pyEndsWith stripped [':'] &&
        ¬ pyStartsWith stripped ['-'] && ¬ pyStartsWith stripped ['#'] then
      let jobs :=
        match st.current_job with
        | some j => setA st.jobs j (joinNL st.current_lines)
        | none => st.jobs
      { st with jobs := jobs,
                current_job := some (String.mk (pyRStripChars stripped [':'])),
                current_lines := [] }
    else
      match st.current_job with
      | some _ =>
        if indent < st.job_indent && stripped ≠ [] && ¬ pyStartsWith stripped ['#'] then
          { st with stopped := true }
        else { st with current_lines := st.current_lines ++ [line] }
      | none => st

/-- Embedding of `_extract_jobs`: job name to content block, in order.
The final pending job is saved even after the `break`. -/
def extract_jobs (cs : List Char) : List (String × List Char) :=
  let st := (splitChar '\n' cs).foldl ejStep ⟨[], false, none, [], 0, false⟩
  match st.current_job with
  | some j => setA st.jobs j (joinNL st.current_lines)
  | none => st.jobs

/-- Loop state of `_extract_section`. -/
structure ESState where
  in_section : Bool
  section_lines : List (List Char)
  section_indent : Nat
  stopped : Bool

/-- One iteration of the line loop in `_extract_section`. -/
def esStep (key : List Char) (st : ESState) (line : List Char) : ESState :=
  if st.stopped then st
  else
    let stripped := pyLStrip line
    let indent := line.length - stripped.length
    if pyStartsWith stripped key then
      { st with in_section := true, section_indent := indent,
                section_lines := st.section_lines ++ [line] }
    else if st.in_section then
      if indent ≤ st.section_indent && stripped ≠ [] && ¬ pyStartsWith stripped ['#'] then
        { st with stopped := true }
      else { st with section_lines := st.section_lines ++ [line] }
    else st

/-- Embedding of `_extract_section` (returns the empty text when no line of
the section was collected). -/
def extract_section (cs : List Char) (key : List Char) : List Char :=
  joinNL ((splitChar '\n' cs).foldl (esStep key) ⟨false, [], 0, false⟩).section_lines

/-- Character admitted by the class `[^\]\n]` of the first `needs:` regex. -/
def ncPred (c : Char) : Bool := c ≠ ']' && c ≠ '\n'

/-- Backtracking arm of `needs:\s*\[?([^\]\n]+)`: when the text after the
maximal whitespace run cannot start the group, the greedy `\s*` gives back
characters until a non-newline whitespace character can start it. -/
def needsBacktrack (ws rest0 : List Char) : Option (List Char) :=
  let rev := ws.reverse
  let trailNl := rev.takeWhile (fun c => c = '\n')
  match rev.dropWhile (fun c => c = '\n') with
  | [] => none
  | w :: _ => if trailNl ≠ [] then some [w] else some (w :: rest0.takeWhile ncPred)

/-- Group 1 of `needs:\s*\[?([^\]\n]+)` matched right after the literal
`needs:` (Python backtracking semantics, including the quirk that a lone
`[` can become the group). -/
def needsGroup1At (after : List Char) : Option (List Char) :=
  let ws := after.takeWhile Char.isWhitespace
  let rest0 := after.dropWhile Char.isWhitespace
  match rest0 with
  | '[' :: rest1 =>
    match rest1 with
    | c :: _ => if ncPred c then some (rest1.takeWhile ncPred) else some ['[']
    | [] => some ['[']
  | c :: _ => if ncPred c then some (rest0.takeWhile ncPred) else needsBacktrack ws rest0
  | [] => needsBacktrack ws rest0

/-- `re.search(r"needs:\s*\[?([^\]\n]+)", s)`: group 1 at the first
occurrence of `needs:` where the rest matches. -/
def needsSearch1 : List Char → Option (List Char)
  | [] => none
  | cs@(_ :: tl) =>
    if prefixAt "needs:".data cs then
      match needsGroup1At (cs.drop 6) with
      | some g => some g
      | none => needsSearch1 tl
    else needsSearch1 tl

/-- `re.search(r"needs:\s+(\S+)", s)`: group 1 at the first occurrence of
`needs:` followed by at least one whitespace and one non-whitespace run. -/
def needsSearch2 : List Char → Option (List Char)
  | [] => none
  | cs@(_ :: tl) =>
    if prefixAt "needs:".data cs then
      let after := cs.drop 6
      let ws := after.takeWhile Char.isWhitespace
      let rest0 := after.dropWhile Char.isWhitespace
      if ws ≠ [] && rest0 ≠ [] then some (rest0.takeWhile (fun c => ¬ c.isWhitespace))
      else needsSearch2 tl
    else needsSearch2 tl

/-- The dependency list of one job, as built for `needs_map`. -/
def depsOf (job_content : List Char) : List String :=
  match needsSearch1 job_content with
  | some g =>
    (splitChar ',' g).map (fun d => String.mk (pyStripChars (pyStrip d) [squoteC, dquoteC]))
  | none =>
    match needsSearch2 job_content with
    | some g => [String.mk (pyStrip g)]
    | none => []

/-- Embedding of `_trace_chain`'s while loop, on fuel (each iteration adds a
fresh parent to `visited`, so `|needs_map| + 1` steps suffice); returns the
extended chain and the updated visited set. -/
def traceChainAux (needs_map : List (String × List String)) :
    Nat → String → List String → List String → (List String × List String)
  | 0, _, chain, visited => (chain, visited)
  | fuel + 1, current, chain, visited =>
    match getA needs_map current with
    | some [parent] =>
      if visited.contains parent || parent = current then (chain, visited)
      else traceChainAux needs_map fuel parent (parent :: chain) (visited ++ [parent])
    | _ => (chain, visited)

/-- The outer loop over `needs_map`: first job whose traced chain reaches
four jobs (the `visited` set persists across iterations as in the Python). -/
def chainScan (needs_map : List (String × List String)) :
    List (String × List String) → List String → Option (List String)
  | [], _ => none
  | (j, _) :: rest, visited =>
    let r := traceChainAux needs_map (needs_map.length + 1) j [j] visited
    if r.1.length ≥ 4 then some r.1 else chainScan needs_map rest r.2

/-- First match of one deprecated-action pattern `lit ++ [digit] ++ \b`:
returns the matched digit. -/
def depFindFirst (lit : List Char) (digits : List Char) : List Char → Option Char
  | [] => none
  | cs@(_ :: tl) =>
    if prefixAt lit cs then
      match cs.drop lit.length with
      | d :: rest =>
        if digits.contains d &&
            (match rest with
             | [] => true
             | e :: _ => ¬ isWordChar e) then some d
        else depFindFirst lit digits tl
      | [] => depFindFirst lit digits tl
    else depFindFirst lit digits tl

/-- Whether `fetch-depth:\s*[01]` matches somewhere (the greedy `\s*` cannot
give back characters usefully, since whitespace never matches `[01]`). -/
def fetchDepthMatch : List Char → Bool
  | [] => false
  | cs@(_ :: tl) =>
    if prefixAt "fetch-depth:".data cs then
      (match (cs.drop 12).dropWhile Char.isWhitespace with
       | c :: _ => c = '0' || c = '1'
       | [] => false) || fetchDepthMatch tl
    else fetchDepthMatch tl

/-- The credential keywords of the hardcoded-secret pattern (lowercase; the
scan runs on the lowercased text, modelling `re.IGNORECASE`). -/
def secretKeywords : List (List Char) :=
  ["password".data, "token".data, "secret".data, "key".data, "api_key".data]

/-- The tail of the hardcoded-secret pattern after a keyword:
`\s*[:=]\s*["\'][^$\{][^"\']{8,}`. -/
def secretRest (cs : List Char) : Bool :=
  match cs.dropWhile Char.isWhitespace with
  | c :: r2 =>
    if c = ':' || c = '=' then
      match r2.dropWhile Char.isWhitespace with
      | q :: r4 =>
        if q = dquoteC || q = squoteC then
          match r4 with
          | d :: r5 =>
            d ≠ '$' && d ≠ lbraceC &&
              (r5.takeWhile (fun e => e ≠ dquoteC && e ≠ squoteC)).length ≥ 8
          | [] => false
        else false
      | [] => false
    else false
  | [] => false

/-- Existence of a hardcoded-secret match in the (lowercased) text. -/
def secretSearch : List Char → Bool
  | [] => false
  | cs@(_ :: tl) =>
    (secretKeywords.any (fun kw => prefixAt kw cs && secretRest (cs.drop kw.length))) ||
      secretSearch tl

/-- Finding of the missing-`concurrency` check. -/
def concurrency_findings (cs : List Char) : List Finding :=
  if ¬ containsSub cs "concurrency".data then
    [⟨"warning", "cost", "No concurrency group",
      "Workflow does not define a concurrency group. Multiple runs for the same branch will execute in parallel, wasting resources.",
      "Add:\nconcurrency:\n  group: $\x7b\x7b github.workflow \x7d\x7d-$\x7b\x7b github.ref \x7d\x7d\n  cancel-in-progress: true",
      some "10-30% fewer redundant runs"⟩]
  else []

/-- Findings of the per-job missing-timeout check. -/
def timeout_findings (jobs : List (String × List Char)) : List Finding :=
  jobs.flatMap (fun jb =>
    if ¬ containsSub jb.2 "timeout-minutes".data then
      [⟨"warning", "cost", "No timeout on job " ++ squoteS ++ jb.1 ++ squoteS,
        "Job " ++ squoteS ++ jb.1 ++ squoteS ++
          " has no timeout-minutes set. A stuck job will run until the default 6-hour limit.",
        "Add " ++ squoteS ++ "timeout-minutes: 15" ++ squoteS ++
          " (or appropriate limit) to the " ++ squoteS ++ jb.1 ++ squoteS ++ " job.",
        some "Prevents runaway jobs (up to 360 min wasted)"⟩]
    else [])

/-- Finding of the missing-caching check. -/
def caching_findings (cs : List Char) : List Finding :=
  let has_setup :=
    ["actions/setup-python@".data, "actions/setup-node@".data,
     "actions/setup-go@".data, "actions/setup-java@".data].any (containsSub cs ·)
  let has_cache := containsSub cs "actions/cache@".data || containsSub cs "cache:".data
  if has_setup && ¬ has_cache then
    [⟨"warning", "performance", "No dependency caching detected",
      "A setup action is used but no caching is configured. Dependencies are re-downloaded every run.",
      "Add " ++ squoteS ++ "cache: pip" ++ squoteS ++
        " (or npm/yarn) to the setup action, or use actions/cache@v4 with appropriate key.",
      some "30-60% faster dependency installation"⟩]
  else []

/-- Finding of the shallow-checkout suggestion. -/
def checkout_findings (cs : List Char) : List Finding :=
  if countSub cs "actions/checkout@".data > 0 && ¬ fetchDepthMatch cs &&
      ¬ containsSub cs "fetch-depth".data then
    if ¬ containsSub cs "git log".data && ¬ containsSub cs "git diff".data &&
        ¬ containsSub cs "git blame".data then
      [⟨"info", "performance", "Consider shallow checkout",
        "Full git history is fetched but may not be needed.",
        "Add " ++ squoteS ++ "fetch-depth: 1" ++ squoteS ++
          " to actions/checkout if full history is not required.",
        some "5-15 seconds per checkout"⟩]
    else []
  else []

/-- Finding of the long-sequential-chain check (the inner `parent_counts`
loop of the Python is a no-op and is omitted). -/
def chain_findings (jobs : List (String × List Char)) : List Finding :=
  let needs_map := jobs.map (fun jb => (jb.1, depsOf jb.2))
  let chain_jobs := needs_map.filter (fun e => e.2.length = 1)
  if chain_jobs.length > 2 then
    match chainScan needs_map needs_map [] with
    | some chain =>
      [⟨"info", "performance",
        "Long sequential chain detected (" ++ toString chain.length ++ " jobs)",
        "Jobs form a linear chain: " ++ String.intercalate " -> " chain ++
          ". Some may be parallelizable.",
        "Review if any jobs in the chain are independent and can run in parallel by removing unnecessary " ++
          squoteS ++ "needs" ++ squoteS ++ " dependencies.",
        some "Potential 20-40% pipeline time reduction"⟩]
    | none => []
  else []

/-- Finding of the missing-path-filters check. -/
def path_filter_findings (cs : List Char) : List Finding :=
  let on_section := extract_section cs "on:".data
  if on_section ≠ [] && ¬ containsSub on_section "paths".data &&
      ¬ containsSub on_section "paths-ignore".data &&
      (containsSub on_section "push".data || containsSub on_section "pull_request".data) then
    [⟨"info", "cost", "No path filters on triggers",
      "Workflow runs on all file changes. Documentation-only changes trigger the full pipeline.",
      "Add paths or paths-ignore filters to skip runs for non-code changes (e.g., docs/, *.md).",
      some "5-20% fewer unnecessary runs"⟩]
  else []

/-- The deprecated-action patterns: literal prefix, digit class, upgrade. -/
def deprecatedPatterns : List (List Char × List Char × String) :=
  [("actions/checkout@v".data, ['1', '2'], "actions/checkout@v4"),
   ("actions/setup-python@v".data, ['1', '2', '3'], "actions/setup-python@v5"),
   ("actions/setup-node@v".data, ['1', '2', '3'], "actions/setup-node@v4"),
   ("actions/cache@v".data, ['1', '2', '3'], "actions/cache@v4"),
   ("actions/upload-artifact@v".data, ['1', '2', '3'], "actions/upload-artifact@v4"),
   ("actions/download-artifact@v".data, ['1', '2', '3'], "actions/download-artifact@v4")]

/-- Findings of the deprecated-action check (one per matching pattern, with
the first match in the title). -/
def deprecated_findings (cs : List Char) : List Finding :=
  deprecatedPatterns.flatMap (fun pat =>
    match depFindFirst pat.1 pat.2.1 cs with
    | some d =>
      [⟨"warning", "maintenance", "Outdated action: " ++ String.mk (pat.1 ++ [d]),
        "Using an older version of a GitHub action. Older versions may lack features, performance improvements, and security patches.",
        "Upgrade to " ++ pat.2.2 ++ ".", none⟩]
    | none => [])

/-- Finding of the hardcoded-secret check. -/
def secret_findings (cs : List Char) : List Finding :=
  if secretSearch (pyLower cs) then
    [⟨"critical", "security", "Possible hardcoded secret",
      "Found what appears to be a hardcoded credential in the workflow file.",
      "Use GitHub Secrets ($\x7b\x7b secrets.SECRET_NAME \x7d\x7d) instead of hardcoded values.",
      none⟩]
  else []

/-- Finding of the missing-permissions check. -/
def permissions_findings (cs : List Char) : List Finding :=
  if ¬ containsSub cs "permissions:".data then
    [⟨"warning", "security", "No permissions block",
      "Workflow does not restrict permissions. It runs with the default token permissions, which may be overly broad.",
      "Add a top-level " ++ squoteS ++ "permissions:" ++ squoteS ++
        " block with least-privilege access (e.g., contents: read).", none⟩]
  else []

/-- Finding of the unpinned-`ubuntu-latest` check. -/
def ubuntu_findings (cs : List Char) : List Finding :=
  if containsSub cs "runs-on: ubuntu-latest".data then
    [⟨"info", "maintenance", "Using ubuntu-latest (unpinned)",
      "ubuntu-latest will change over time as GitHub updates it. This could cause unexpected breakage.",
      "Consider pinning to a specific version (e.g., ubuntu-24.04) for reproducibility, or accept the trade-off for automatic updates.",
      none⟩]
  else []

/-- The severity rank used by the final stable sort (`SEVERITY_ORDER`). -/
def sevRank (s : String) : Nat :=
  if s = "critical" then 0 else if s = "warning" then 1 else if s = "info" then 2 else 99

/-- The findings emitted by `analyze_workflow_file` for a readable file's
text, in program order, stably sorted by severity.  The `file_info` side
product (line count and the float-based cost estimate) is not modelled;
no finding depends on it. -/
def analyze_workflow_findings (content : String) : List Finding :=
  let cs := content.data
  let jobs := extract_jobs cs
  sortStable (fun f g => sevRank f.severity ≤ sevRank g.severity)
    (concurrency_findings cs ++ timeout_findings jobs ++ caching_findings cs ++
     checkout_findings cs ++ chain_findings jobs ++ path_filter_findings cs ++
     deprecated_findings cs ++ secret_findings cs ++ permissions_findings cs ++
     ubuntu_findings cs)

/-- Embedding of `analyze_workflow_file`'s findings: an unreadable or
non-UTF-8 file yields the single critical file finding before any analysis. -/
def analyze_workflow_file (text : Option String) : List Finding :=
  match text with
  | none =>
    [⟨"critical", "file", "Cannot read file", "Error reading file: UnicodeDecodeError",
      "Check file permissions and encoding.", none⟩]
  | some content => analyze_workflow_findings content

/-- The predicate of the amended C3 claim. -/
def concP (f : Finding) : Bool :=
  f.severity == "warning" && f.category == "cost" && f.title == "No concurrency group"

/-! ## Command-line entry points and exit codes (C7)

The two `main` functions cited by the claim are embedded as functions from
the argument vector and a file system to the process exit code.  The
argument parsing mirrors Python `argparse` for the concrete parsers the
scripts build: `-h`/`--help` prints help and exits 0, any usage error
(unknown option, missing or extra positional, a value outside `choices`)
prints usage and exits 2 — CPython's documented `argparse` behaviour.
Abbreviated long options and `--opt=value` forms are not modelled.
Writes and prints are assumed to succeed; an uncaught Python exception
(exit code 1) arises only on the `validateSkillRaises` path. -/

/-- Outcome of argument parsing. -/
inductive ParseResult (α : Type) where
  | usageError
  | helpExit
  | ok (a : α)

/-- Parsed arguments of `pipeline_analyzer.py`. -/
structure PAArgs where
  path : String
  format : String
  output : Option String

/-- The `argparse` loop of `pipeline_analyzer.py` (fuel-driven; the fuel is
the argument count, which bounds the iterations). -/
def parsePipelineArgsAux : Nat → List String → List String → String → Option String →
    ParseResult PAArgs
  | _, [], pos, fmt, out =>
    match pos with
    | [p] => .ok ⟨p, fmt, out⟩
    | _ => .usageError
  | 0, _ :: _, _, _, _ => .usageError
  | fuel + 1, t :: rest, pos, fmt, out =>
    if t = "-h" || t = "--help" then .helpExit
    else if t = "--format" then
      match rest with
      | [] => .usageError
      | v :: rest2 =>
        if v = "text" || v = "json" then parsePipelineArgsAux fuel rest2 pos v out
        else .usageError
    else if t = "--output" || t = "-o" then
      match rest with
      | [] => .usageError
      | v :: rest2 => parsePipelineArgsAux fuel rest2 pos fmt (some v)
    else if pyStartsWith t.data ['-'] && t ≠ "-" then .usageError
    else parsePipelineArgsAux fuel rest (pos ++ [t]) fmt out

/-- Argument parsing of `pipeline_analyzer.py`. -/
def parsePipelineArgs (args : List String) : ParseResult PAArgs :=
  parsePipelineArgsAux args.length args [] "text" none

/-- A CLI path string as FS components. -/
def splitPath (s : String) : List String := (splitChar '/' s.data).map String.mk

/-- Embedding of `main` from `pipeline_analyzer.py`: the process exit code
for a given argument vector and file system. -/
def pipeline_main (args : List String) (fs : VFS) : Nat :=
  match parsePipelineArgs args with
  | .usageError => 2
  | .helpExit => 0
  | .ok a =>
    if ¬ fs.existsAt (splitPath a.path) then 1
    else if fs.isFileAt (splitPath a.path) then
      if pathSuffix (lastComponent (splitPath a.path)) = ".yml" ||
          pathSuffix (lastComponent (splitPath a.path)) = ".yaml" then 0
      else 1
    else if fs.isDirAt (splitPath a.path) then
      if ((fs.childFileNames (splitPath a.path)).filter
          (fun n => pyEndsWith n.data ".yml".data || pyEndsWith n.data ".yaml".data)) = [] then 1
      else 0
    else 1

/-- Parsed arguments of `cross_platform_validator.py`. -/
structure CVArgs where
  skill_dir : String
  strict : Bool
  json : Bool

/-- The `argparse` loop of `cross_platform_validator.py`. -/
def parseValidatorArgsAux : Nat → List String → List String → Bool → Bool →
    ParseResult CVArgs
  | _, [], pos, st, js =>
    match pos with
    | [p] => .ok ⟨p, st, js⟩
    | _ => .usageError
  | 0, _ :: _, _, _, _ => .usageError
  | fuel + 1, t :: rest, pos, st, js =>
    if t = "-h" || t = "--help" then .helpExit
    else if t = "--strict" then parseValidatorArgsAux fuel rest pos true js
    else if t = "--json" then parseValidatorArgsAux fuel rest pos st true
    else if pyStartsWith t.data ['-'] && t ≠ "-" then .usageError
    else parseValidatorArgsAux fuel rest (pos ++ [t]) st js

/-- Argument parsing of `cross_platform_validator.py`. -/
def parseValidatorArgs (args : List String) : ParseResult CVArgs :=
  parseValidatorArgsAux args.length args [] false false

/-- The subtree of the file system below a path, with paths relativised
(used to run `validate_skill` rooted at the skill directory). -/
def VFS.subtree (fs : VFS) (p : List String) : VFS :=
  ⟨fs.entries.filterMap (fun e =>
    if e.1.take p.length = p && e.1.length > p.length then some (e.1.drop p.length, e.2)
    else none)⟩

/-- Embedding of `main` from `cross_platform_validator.py`: the process
exit code (a non-directory argument exits 1, an incompatible skill exits 1,
the uncaught `requirements.txt` decode error exits 1 as any uncaught
Python exception does). -/
def validator_main (args : List String) (fs : VFS) : Nat :=
  match parseValidatorArgs args with
  | .usageError => 2
  | .helpExit => 0
  | .ok a =>
    if ¬ fs.isDirAt (splitPath a.skill_dir) then 1
    else if validateSkillRaises (fs.subtree (splitPath a.skill_dir)) then 1
    else if (validate_skill (fs.subtree (splitPath a.skill_dir))
        (lastComponent (splitPath a.skill_dir)) a.strict).compatible then 0
    else 1

/-! ## claudemd_optimizer.py : analyze_claudemd

The 18 redundancy/verbosity regular expressions are interpreted by a small
total regex engine (Brzozowski derivatives).  `re.findall` counting is
modelled as counting non-overlapping leftmost matches, taking the longest
match at each position; for these patterns (literals, character classes,
`?`/`+` followed by literals) CPython's backtracking engine finds exactly
the longest match, so the counts agree.  `re.IGNORECASE` is modelled by
matching the lowercase patterns against the lowercased text. -/

/-- Backtick character, written via its code point. -/
def backqC : Char := Char.ofNat 96

/-- The string consisting of one double-quote character. -/
def dquoteS : String := String.mk [dquoteC]

/-- Regular expressions: empty language, empty string, character class,
concatenation, alternation, Kleene star. -/
inductive Rx where
  | fail
  | eps
  | cls (p : Char → Bool)
  | cat (a b : Rx)
  | alt (a b : Rx)
  | star (a : Rx)

/-- Whether the regex accepts the empty string. -/
def Rx.nullable : Rx → Bool
  | .fail => false
  | .eps => true
  | .cls _ => false
  | .cat a b => a.nullable && b.nullable
  | .alt a b => a.nullable || b.nullable
  | .star _ => true

/-- Smart concatenation (keeps derivative terms small). -/
def mkCat : Rx → Rx → Rx
  | .fail, _ => .fail
  | _, .fail => .fail
  | .eps, b => b
  | a, .eps => a
  | a, b => .cat a b

/-- Smart alternation. -/
def mkAlt : Rx → Rx → Rx
  | .fail, b => b
  | a, .fail => a
  | a, b => .alt a b

/-- Brzozowski derivative by one character. -/
def Rx.deriv : Rx → Char → Rx
  | .fail, _ => .fail
  | .eps, _ => .fail
  | .cls p, c => if p c then .eps else .fail
  | .cat a b, c =>
    if a.nullable then mkAlt (mkCat (a.deriv c) b) (b.deriv c) else mkCat (a.deriv c) b
  | .alt a b, c => mkAlt (a.deriv c) (b.deriv c)
  | .star a, c => mkCat (a.deriv c) (.star a)

/-- Length of the longest match of `r` at the start of the text. -/
def longestAux : Rx → List Char → Nat → Option Nat → Option Nat
  | r, [], i, best => if r.nullable then some i else best
  | r, c :: cs, i, best =>
    longestAux (r.deriv c) cs (i + 1) (if r.nullable then some i else best)

/-- Longest-match length at the start of the text, if any. -/
def longestMatch (r : Rx) (cs : List Char) : Option Nat := longestAux r cs 0 none

/-- `re.search`: does the regex match anywhere in the text? -/
def rxSearch (r : Rx) : List Char → Bool
  | [] => (longestMatch r []).isSome
  | cs@(_ :: tl) => (longestMatch r cs).isSome || rxSearch r tl

/-- `len(re.findall(...))`: count of non-overlapping leftmost matches,
advancing past each (longest) match; zero-length matches advance by one. -/
def rxCountAux (r : Rx) : Nat → List Char → Nat
  | 0, _ => 0
  | _ + 1, [] => 0
  | fuel + 1, cs@(_ :: tl) =>
    match longestMatch r cs with
    | some 0 => 1 + rxCountAux r fuel tl
    | some (n + 1) => 1 + rxCountAux r fuel (cs.drop (n + 1))
    | none => rxCountAux r fuel tl

/-- `len(re.findall(pattern, text))`. -/
def rxCount (r : Rx) (cs : List Char) : Nat := rxCountAux r (cs.length + 1) cs

/-- A literal regex. -/
def rxLit (s : String) : Rx :=
  s.data.foldr (fun c acc => .cat (.cls (fun d => d = c)) acc) .eps

/-- One-of-several literal words. -/
def rxAlts : List Rx → Rx := fun l => l.foldr mkAlt .fail

/-- Optional regex (`?`). -/
def rxOpt (r : Rx) : Rx := .alt r .eps

/-- One-or-more (`+`). -/
def rxPlus (r : Rx) : Rx := .cat r (.star r)

/-- Sequence of regexes. -/
def rxSeq : List Rx → Rx := fun l => l.foldr .cat .eps

/-- The `GENERIC_PATTERNS` table: regex, its source text, message. -/
def genericPatterns : List (Rx × String × String) :=
  [(rxSeq [rxLit "write clean", rxPlus (.cls (fun c => c = ',' || c.isWhitespace)),
      rxLit "readable code"],
    "write clean[,\\s]+readable code", "Generic advice - Claude already writes clean code"),
   (rxLit "follow best practices", "follow best practices", "Too vague - specify which practices"),
   (rxLit "use meaningful variable names", "use meaningful variable names",
    "Generic advice - already default behavior"),
   (rxLit "add comments where necessary", "add comments where necessary",
    "Generic advice - specify commenting standards if non-obvious"),
   (rxSeq [rxLit "handle error", rxOpt (rxLit "s"), rxLit " ",
      rxAlts [rxLit "properly", rxLit "gracefully", rxLit "appropriately"]],
    "handle errors? (properly|gracefully|appropriately)",
    "Too vague - specify error handling patterns"),
   (rxLit "write unit tests", "write unit tests",
    "Too vague without specifying framework, coverage target, or patterns"),
   (rxSeq [rxLit "keep ", rxAlts [rxLit "it", rxLit "things", rxLit "code"], rxLit " ",
      rxAlts [rxLit "simple", rxLit "dry", rxLit "clean"]],
    "keep (it|things|code) (simple|dry|clean)", "Generic advice - specify concrete constraints"),
   (rxSeq [rxLit "follow the ", rxAlts [rxLit "existing", rxLit "current"], rxLit " ",
      rxAlts [rxSeq [rxLit "pattern", rxOpt (rxLit "s")],
        rxSeq [rxLit "convention", rxOpt (rxLit "s")], rxLit "style"]],
    "follow the (existing|current) (patterns?|conventions?|style)",
    "Good intent but vague - specify which patterns"),
   (rxSeq [rxLit "make sure to ", rxAlts [rxLit "test", rxLit "validate", rxLit "verify"]],
    "make sure to (test|validate|verify)", "Generic - specify what and how"),
   (rxSeq [rxLit "ensure ", rxOpt (rxLit "code "), rxLit "quality"],
    "ensure (code )?quality", "Too vague - specify quality metrics or checks")]

/-- The `VERBOSITY_PATTERNS` table. -/
def verbosityPatterns : List (Rx × String × String) :=
  [(rxLit "it is important to note that", "it is important to note that", "Remove filler phrase"),
   (rxSeq [rxLit "please ", rxAlts [rxLit "make sure", rxLit "ensure", rxLit "remember"],
      rxLit " ", rxAlts [rxLit "to", rxLit "that"]],
    "please (make sure|ensure|remember) (to|that)", "Remove politeness filler"),
   (rxSeq [rxLit "you should ", rxAlts [rxLit "always", rxLit "never"]],
    "you should (always|never)", "Simplify to direct instruction"),
   (rxLit "in order to", "in order to", "Replace with " ++ squoteS ++ "to" ++ squoteS),
   (rxLit "at this point in time", "at this point in time",
    "Replace with " ++ squoteS ++ "now" ++ squoteS ++ " or remove"),
   (rxLit "due to the fact that", "due to the fact that",
    "Replace with " ++ squoteS ++ "because" ++ squoteS),
   (rxLit "it goes without saying", "it goes without saying", "If obvious, remove entirely"),
   (rxLit "as a matter of fact", "as a matter of fact", "Remove filler")]

/-- A redundancy issue; `rtype` carries the Python dict's `type` field. -/
structure RIssue where
  rtype : String
  pattern : Option String
  message : String
  occurrences : Nat
deriving DecidableEq, Repr

/-- Fuel-driven worker for `sentSplit` (each step consumes at least one
character, so the text length bounds the recursion). -/
def sentSplitAux : Nat → List Char → List (List Char)
  | 0, _ => [[]]
  | _ + 1, [] => [[]]
  | fuel + 1, c :: cs =>
    if (c = '.' || c = '!' || c = '?') &&
        (match cs with
         | [] => false
         | d :: _ => d.isWhitespace) then
      [] :: sentSplitAux fuel (cs.dropWhile Char.isWhitespace)
    else
      match sentSplitAux fuel cs with
      | [] => [[c]]
      | h :: t => (c :: h) :: t

/-- `re.split(r"[.!?]\s+", text)`: pieces between punctuation-plus-space
delimiters. -/
def sentSplit (cs : List Char) : List (List Char) := sentSplitAux (cs.length + 1) cs

/-- First occurrences of each element, in order (the iteration order of a
`Counter` built by insertion). -/
def dedupFirstAux : List (List Char) → List (List Char) → List (List Char)
  | [], _ => []
  | x :: xs, seen =>
    if seen.contains x then dedupFirstAux xs seen
    else x :: dedupFirstAux xs (seen ++ [x])

/-- First occurrences of each element, in order. -/
def dedupFirst (l : List (List Char)) : List (List Char) := dedupFirstAux l []

/-- Occurrence count of an element. -/
def countOcc (l : List (List Char)) (x : List Char) : Nat := l.countP (fun y => y = x)

/-- Word trigrams joined by single spaces. -/
def trigrams : List (List Char) → List (List Char)
  | w1 :: w2 :: w3 :: rest => (w1 ++ ' ' :: (w2 ++ ' ' :: w3)) :: trigrams (w2 :: w3 :: rest)
  | _ => []

/-- The `common_skip` set of the repeated-phrase check. -/
def commonSkip : List (List Char) :=
  ["in the the".data, "of the the".data, "and the the".data]

/-- Embedding of `detect_redundancy`: generic-pattern issues, verbosity
issues, duplicate sentences, repeated trigrams, in program order. -/
def detect_redundancy (text : List Char) : List RIssue :=
  let lower := pyLower text
  (genericPatterns.filterMap (fun pm =>
    let n := rxCount pm.1 lower
    if n ≠ 0 then some ⟨"generic_content", some pm.2.1, pm.2.2, n⟩ else none)) ++
  (verbosityPatterns.filterMap (fun pm =>
    let n := rxCount pm.1 lower
    if n ≠ 0 then some ⟨"verbose_phrasing", some pm.2.1, pm.2.2, n⟩ else none)) ++
  (let sentences_clean := ((sentSplit text).filter
      (fun s => (pyStrip s).length > 20)).map (fun s => pyLower (pyStrip s))
   (dedupFirst sentences_clean).filterMap (fun s =>
    let c := countOcc sentences_clean s
    if c > 1 then
      some ⟨"duplicate_sentence", none,
        "Sentence appears " ++ toString c ++ " times: " ++ dquoteS ++
          String.mk (s.take 80) ++ "..." ++ dquoteS, c⟩
    else none)) ++
  (let tris := trigrams (pyWords (pyLower text))
   (dedupFirst tris).filterMap (fun tri =>
    let c := countOcc tris tri
    if c ≥ 4 && tri.length > 10 && ¬ commonSkip.contains tri then
      some ⟨"repeated_phrase", none,
        "Phrase " ++ dquoteS ++ String.mk tri ++ dquoteS ++ " appears " ++
          toString c ++ " times", c⟩
    else none))

/-- Python `CHARS_PER_TOKEN = 3.5`; `int(len(text) / 3.5)` equals
`2 * len / 7` in integer arithmetic (the float division is exact enough
that its floor agrees for any realistic length). -/
def estimate_tokens (text : String) : Nat := 2 * text.length / 7

/-- A markdown section extracted by `extract_sections`. -/
structure MSection where
  title : String
  level : Nat
  content : String
  line_count : Nat
  token_estimate : Nat
deriving DecidableEq, Repr

/-- The heading pattern `^(#{1,6})\s+(.+)$` on one line: the level and the
stripped title (backtracking lets a trailing run of blanks after the hashes
match with an empty stripped title). -/
def headingMatch (line : List Char) : Option (Nat × List Char) :=
  let k := (line.takeWhile (· = '#')).length
  if 1 ≤ k && k ≤ 6 then
    let t := line.drop k
    match t with
    | c :: rest =>
      if c.isWhitespace && rest ≠ [] then
        some (k, pyStrip (t.dropWhile Char.isWhitespace))
      else none
    | [] => none
  else none

/-- Build one section record from the accumulated content lines. -/
def mkSection (title : List Char) (level : Nat) (content_lines : List (List Char)) :
    MSection :=
  let content_text := pyStrip (joinNL content_lines)
  ⟨String.mk title, level, String.mk content_text,
   (content_lines.filter (fun l => pyStrip l ≠ [])).length,
   estimate_tokens (String.mk content_text)⟩

/-- Loop state of `extract_sections`. -/
structure XSState where
  sections : List MSection
  current_section : Option (List Char)
  current_content : List (List Char)
  current_level : Nat

/-- One iteration of the line loop in `extract_sections`. -/
def xsStep (st : XSState) (line : List Char) : XSState :=
  match headingMatch line with
  | some (k, title) =>
    let sections :=
      match st.current_section with
      | some t => st.sections ++ [mkSection t st.current_level st.current_content]
      | none => st.sections
    { sections := sections, current_section := some title,
      current_content := [], current_level := k }
  | none => { st with current_content := st.current_content ++ [line] }

/-- Embedding of `extract_sections`. -/
def extract_sections (text : String) : List MSection :=
  let st := (splitChar '\n' text.data).foldl xsStep ⟨[], none, [], 0⟩
  match st.current_section with
  | some t => st.sections ++ [mkSection t st.current_level st.current_content]
  | none => st.sections

/-- One row of `RECOMMENDED_SECTIONS`: name, aliases, importance,
description. -/
structure RecSection where
  name : String
  aliases : List (List Char)
  importance : String
  description : String

/-- The `RECOMMENDED_SECTIONS` table, in insertion order. -/
def recommendedSections : List RecSection :=
  [⟨"project purpose",
    ["project purpose".data, "project overview".data, "about".data, "overview".data,
     "what is this".data],
    "critical", "One paragraph explaining what the project is and who it serves"⟩,
   ⟨"architecture overview",
    ["architecture".data, "structure".data, "directory structure".data,
     "repository structure".data, "project structure".data],
    "critical", "Directory layout, key patterns, data flow"⟩,
   ⟨"development environment",
    ["development environment".data, "development".data, "setup".data,
     "getting started".data, "quick start".data, "dev setup".data, "build".data,
     "environment".data],
    "critical", "Build commands, test commands, environment setup"⟩,
   ⟨"key principles",
    ["key principles".data, "principles".data, "guidelines".data, "rules".data,
     "conventions".data, "standards".data],
    "high", "3-7 non-obvious rules Claude must follow"⟩,
   ⟨"anti-patterns",
    ["anti-patterns".data, "anti patterns".data, ("don" ++ squoteS ++ "t").data,
     "avoid".data, "pitfalls".data, "common mistakes".data],
    "high", "Things that look reasonable but are wrong in this project"⟩,
   ⟨"git workflow",
    ["git workflow".data, "git".data, "branching".data, "branch strategy".data,
     "commits".data, "version control".data],
    "medium", "Branch strategy, commit conventions, PR process"⟩,
   ⟨"testing",
    ["testing".data, "tests".data, "test".data, "test commands".data, "how to test".data],
    "medium", "How to run tests, testing conventions, coverage targets"⟩]

/-- One completeness row (`section`, `importance`, `found`, `matched_as`,
`description`). -/
structure CompCheck where
  section_name : String
  importance : String
  found : Bool
  matched_as : Option String
  description : String
deriving DecidableEq, Repr

/-- First alias (in order) with a matching title: a title matches an alias
when either contains the other as a substring. -/
def findAlias : List (List Char) → List (List Char) → Option (List Char)
  | [], _ => none
  | a :: rest, titles =>
    match titles.find? (fun t => containsSub t a || containsSub a t) with
    | some t => some t
    | none => findAlias rest titles

/-- Embedding of `check_section_completeness`. -/
def check_section_completeness (sections : List MSection) : List CompCheck :=
  let titles := sections.map (fun s => pyLower s.title.data)
  recommendedSections.map (fun r =>
    let m := findAlias r.aliases titles
    ⟨r.name, r.importance, m.isSome, m.map String.mk, r.description⟩)

/-- The greedy selection loop of `suggest_hierarchical_loading`. -/
def hierLoop (overage : Nat) : List MSection → Nat → List String
  | [], _ => []
  | s :: rest, moved =>
    if moved ≥ overage then []
    else
      ("Move " ++ dquoteS ++ s.title ++ dquoteS ++ " (~" ++ toString s.token_estimate ++
        " tokens) to a child CLAUDE.md or reference file") ::
      hierLoop overage rest (moved + s.token_estimate)

/-- Embedding of `suggest_hierarchical_loading` (empty when the text fits
within the limit; otherwise the overage banner plus the largest level-2
sections, stably sorted by token estimate descending). -/
def suggest_hierarchical_loading (text : String) (sections : List MSection)
    (token_limit : Nat) : List String :=
  let total := estimate_tokens text
  if total ≤ token_limit then []
  else
    let movable := sortStable (fun a b => b.token_estimate ≤ a.token_estimate)
      (sections.filter (fun s => s.level = 2 && s.token_estimate > 200))
    ("File is ~" ++ toString total ++ " tokens, " ++ toString (total - token_limit) ++
      " tokens over the " ++ toString token_limit ++ " token target.") ::
    hierLoop (total - token_limit) movable 0

/-- One optimization recommendation. -/
structure Rec where
  priority : String
  category : String
  message : String
deriving DecidableEq, Repr

/-- Missing-critical-section recommendations. -/
def recs_completeness_critical (completeness : List CompCheck) : List Rec :=
  completeness.filterMap (fun ck =>
    if ¬ ck.found && ck.importance == "critical" then
      some ⟨"high", "completeness",
        "Add missing critical section: " ++ ck.section_name ++ " -- " ++ ck.description⟩
    else none)

/-- Missing-high-importance-section recommendations. -/
def recs_completeness_high (completeness : List CompCheck) : List Rec :=
  completeness.filterMap (fun ck =>
    if ¬ ck.found && ck.importance == "high" then
      some ⟨"medium", "completeness",
        "Consider adding section: " ++ ck.section_name ++ " -- " ++ ck.description⟩
    else none)

/-- Token-budget recommendations (the only `token_budget`-category ones). -/
def recs_token_budget (total token_limit : Nat) : List Rec :=
  (if total > token_limit then
    [⟨"high", "token_budget",
      "File exceeds target of " ++ toString token_limit ++ " tokens (" ++ toString total ++
        " current). Use hierarchical loading to reduce."⟩]
  else []) ++
  (if total > token_limit * 2 then
    [⟨"high", "token_budget",
      "File is more than double the target size. Major restructuring recommended."⟩]
  else [])

/-- Redundancy recommendations (generic, verbose, duplicate counts). -/
def recs_redundancy (redundancies : List RIssue) : List Rec :=
  (if redundancies.countP (fun r => r.rtype == "generic_content") > 0 then
    [⟨"medium", "redundancy",
      "Found " ++ toString (redundancies.countP (fun r => r.rtype == "generic_content")) ++
        " generic/vague instructions. Replace with specific, actionable guidance or remove."⟩]
  else []) ++
  (if redundancies.countP (fun r => r.rtype == "verbose_phrasing") > 0 then
    [⟨"low", "redundancy",
      "Found " ++ toString (redundancies.countP (fun r => r.rtype == "verbose_phrasing")) ++
        " verbose phrases that can be simplified."⟩]
  else []) ++
  (if redundancies.countP (fun r => r.rtype == "duplicate_sentence") > 0 then
    [⟨"medium", "redundancy",
      "Found " ++ toString (redundancies.countP (fun r => r.rtype == "duplicate_sentence")) ++
        " duplicate sentences. Remove repetition."⟩]
  else [])

/-- Structure recommendations (file length, number of level-2 sections). -/
def recs_structure (text : String) (sections : List MSection) : List Rec :=
  (if (splitChar '\n' text.data).length > 300 then
    [⟨"medium", "structure",
      "File is " ++ toString (splitChar '\n' text.data).length ++
        " lines. Consider splitting into hierarchical CLAUDE.md files."⟩]
  else []) ++
  (if (sections.filter (fun s => s.level = 2)).length > 10 then
    [⟨"low", "structure",
      "File has " ++ toString (sections.filter (fun s => s.level = 2)).length ++
        " top-level sections. Consider consolidating."⟩]
  else [])

/-- Split at the first occurrence of a needle: the part before and after. -/
def splitOnceSub : List Char → List Char → Option (List Char × List Char)
  | [], needle => if prefixAt needle [] then some ([], []) else none
  | cs@(c :: tl), needle =>
    if prefixAt needle cs then some ([], cs.drop needle.length)
    else
      match splitOnceSub tl needle with
      | some (a, b) => some (c :: a, b)
      | none => none

/-- Empty-frontmatter recommendation: if the stripped text starts with
`---` and `text.split("---", 2)` has three parts whose middle strips to
nothing, flag the empty frontmatter. -/
def recs_frontmatter (text : String) : List Rec :=
  if pyStartsWith (pyStrip text.data) threeDashes then
    match splitOnceSub text.data threeDashes with
    | some (_, r1) =>
      match splitOnceSub r1 threeDashes with
      | some (b, _) =>
        if pyStrip b = [] then
          [⟨"low", "structure",
            "YAML frontmatter is empty. Either add content or remove the delimiters."⟩]
        else []
      | none => []
    | none => []
  else []

/-- Bullet-versus-paragraph format recommendation. -/
def recs_format (text : String) : List Rec :=
  let lines := splitChar '\n' text.data
  let bullet_lines := (lines.filter (fun l =>
    pyStartsWith (pyStrip l) "- ".data || pyStartsWith (pyStrip l) "* ".data ||
    pyStartsWith (pyStrip l) "1.".data)).length
  let paragraph_lines := (lines.filter (fun l =>
    (pyStrip l).length > 80 &&
    ¬ (pyStartsWith (pyStrip l) ['#'] || pyStartsWith (pyStrip l) ['-'] ||
       pyStartsWith (pyStrip l) ['*'] || pyStartsWith (pyStrip l) ['|'] ||
       pyStartsWith (pyStrip l) [backqC] || pyStartsWith (pyStrip l) ['>']))).length
  if paragraph_lines > bullet_lines && paragraph_lines > 10 then
    [⟨"medium", "format",
      "Heavy use of paragraphs. Bullet points are ~30% more token-efficient and easier for Claude to parse."⟩]
  else []

/-- Hierarchical-loading recommendations. -/
def recs_hier (hierarchical : List String) : List Rec :=
  hierarchical.map (fun s => ⟨"medium", "hierarchical_loading", s⟩)

/-- Embedding of `generate_recommendations`, in program order. -/
def generate_recommendations (text : String) (sections : List MSection)
    (completeness : List CompCheck) (redundancies : List RIssue)
    (hierarchical : List String) (token_limit : Nat) : List Rec :=
  recs_completeness_critical completeness ++ recs_completeness_high completeness ++
  recs_token_budget (estimate_tokens text) token_limit ++ recs_redundancy redundancies ++
  recs_structure text sections ++ recs_frontmatter text ++ recs_format text ++
  recs_hier hierarchical

/-- The metrics block of the report. -/
structure CMMetrics where
  line_count : Nat
  non_empty_lines : Nat
  character_count : Nat
  word_count : Nat
  token_estimate : Nat
  token_limit : Nat
  within_budget : Bool
  section_count : Nat
deriving DecidableEq, Repr

/-- The metrics computed by `analyze_claudemd`. -/
def metricsOf (text : String) (token_limit : Nat) : CMMetrics :=
  ⟨(splitChar '\n' text.data).length,
   ((splitChar '\n' text.data).filter (fun l => pyStrip l ≠ [])).length,
   text.length,
   (pyWords text.data).length,
   estimate_tokens text,
   token_limit,
   estimate_tokens text ≤ token_limit,
   (extract_sections text).length⟩

/-- The recommendations computed by `analyze_claudemd`. -/
def recommendationsOf (text : String) (token_limit : Nat) : List Rec :=
  generate_recommendations text (extract_sections text)
    (check_section_completeness (extract_sections text))
    (detect_redundancy text.data)
    (suggest_hierarchical_loading text (extract_sections text) token_limit)
    token_limit

/-- The score: 100 minus 15/8/3 per high/medium/low recommendation, clamped
to [0, 100] (the upper clamp is vacuous). -/
def scoreOf (recs : List Rec) : Nat :=
  let penalty := (recs.map (fun r =>
    if r.priority == "high" then 15
    else if r.priority == "medium" then 8
    else if r.priority == "low" then 3 else 0)).sum
  if penalty ≥ 100 then 0 else 100 - penalty

/-- The analysis report of `analyze_claudemd` (success path). -/
structure CMReport where
  metrics : CMMetrics
  sections : List MSection
  completeness : List CompCheck
  redundancies : List RIssue
  recommendations : List Rec
  score : Nat
deriving DecidableEq, Repr

/-- Embedding of `analyze_claudemd` for an existing, readable CLAUDE.md
file, given its text (the missing-file and not-a-file early returns, which
produce an error dict instead of a report, are outside this model). -/
def analyze_claudemd (text : String) (token_limit : Nat) : CMReport :=
  { metrics := metricsOf text token_limit
    sections := extract_sections text
    completeness := check_section_completeness (extract_sections text)
    redundancies := detect_redundancy text.data
    recommendations := recommendationsOf text token_limit
    score := scoreOf (recommendationsOf text token_limit) }

/-! ## skill_scaffolder.py : create_skill_directory

The three file templates (`SKILL_MD_TEMPLATE`, `SCRIPT_TEMPLATE`,
`REFERENCE_TEMPLATE`) are opaque here: a written file is represented by
which template was instantiated and with which arguments, which is all the
claims inspect (the claims are about the set of created paths, not the
generated text). -/

/-- Python `str.capitalize()`: first character upper-cased, rest lowered. -/
def pyCapitalize : List Char → List Char
  | [] => []
  | c :: cs => c.toUpper :: pyLower cs

/-- Join with single spaces. -/
def joinSp : List (List Char) → List Char
  | [] => []
  | [l] => l
  | l :: ls => l ++ ' ' :: joinSp ls

/-- Embedding of `to_title_case`. -/
def to_title_case (name : String) : String :=
  String.mk (joinSp ((splitChar '-' name.data).map pyCapitalize))

/-- Python `s.replace("-", "_")`. -/
def replaceDashUnderscore (s : String) : String :=
  String.mk (s.data.map (fun c => if c = '-' then '_' else c))

/-- A generated file: the instantiated template and its arguments. -/
inductive GenFile where
  | skillMd (name description license version category domain title summary keywords date : String)
  | toolScript (title description filename : String)
  | refGuide (title topic date : String)
  | gitkeep
deriving DecidableEq, Repr

/-- An entry of the scaffolder's output tree. -/
inductive GEntry where
  | file (content : GenFile)
  | dir
deriving DecidableEq, Repr

/-- The output directory's tree (paths relative to `output_dir`). -/
structure GFS where
  entries : List (List String × GEntry)
deriving DecidableEq, Repr

/-- Python `path.exists()` on the output tree. -/
def GFS.existsAt (fs : GFS) (p : List String) : Bool :=
  fs.entries.any (fun e => e.1 = p || (e.1.take p.length = p && e.1.length > p.length))

/-- The result dict of `create_skill_directory`. -/
structure ScaffoldResult where
  success : Bool
  error : Option String
  directories_created : List (List String)
  files_created : List (List String)
deriving DecidableEq, Repr

/-- Embedding of `create_skill_directory`, operating on the output tree
(`output_dir` is the root; `date` is the strftime of the wall clock,
passed as an argument; `os.chmod` has no effect in the model). -/
def create_skill_directory (fs : GFS) (skill_name domain description version
    license_type category date : String) : GFS × ScaffoldResult :=
  let title := to_title_case skill_name
  let category := if category = "" then domain else category
  if fs.existsAt [skill_name] then
    (fs, ⟨false, some ("Directory already exists: " ++ skill_name), [], []⟩)
  else
    let script_name := replaceDashUnderscore skill_name ++ "_tool.py"
    let keywords := String.intercalate ", "
      (((splitChar '-' skill_name.data).map String.mk) ++ [domain, category])
    let newEntries : List (List String × GEntry) :=
      [([skill_name], .dir),
       ([skill_name, "scripts"], .dir),
       ([skill_name, "references"], .dir),
       ([skill_name, "assets"], .dir),
       ([skill_name, "SKILL.md"],
        .file (.skillMd skill_name description license_type version category domain title
          (title ++ " skill with automation tools and reference guides.") keywords date)),
       ([skill_name, "scripts", script_name],
        .file (.toolScript (title ++ " Tool")
          ("Automation tool for " ++ String.mk (pyLower title.data)) script_name)),
       ([skill_name, "references", "guide.md"],
        .file (.refGuide (title ++ " Guide") (String.mk (pyLower title.data)) date)),
       ([skill_name, "assets", ".gitkeep"], .file .gitkeep)]
    (⟨fs.entries ++ newEntries⟩,
     ⟨true, none,
      [[skill_name, "scripts"], [skill_name, "references"], [skill_name, "assets"]],
      [[skill_name, "SKILL.md"], [skill_name, "scripts", script_name],
       [skill_name, "references", "guide.md"], [skill_name, "assets", ".gitkeep"]]⟩)

/-! ## skill-installer.py : discover, install, uninstall

The installer's state is the target directory: the set of installed skill
directories (each remembered with the repository path it was copied from)
and the parsed `.claude-skills.json` manifest (`none` models a missing or
unparsable manifest file, for which `load_manifest` returns the default).
JSON serialisation is modelled as exact.  Each command returns the new
state and the process exit code (`sys.exit(1)` paths carry the state as it
was at exit time). -/

/-- Lexicographic order on character lists (Python string comparison by
code point, used by `sorted(repo_root.rglob("SKILL.md"))`). -/
def lexLt : List Char → List Char → Bool
  | [], [] => false
  | [], _ :: _ => true
  | _ :: _, [] => false
  | c :: cs, d :: ds => if c = d then lexLt cs ds else c < d

/-- Join path components with `/` for comparison, as `Path` ordering does. -/
def joinSlash (p : List String) : List Char := joinNL (p.map String.data) |>.map
  (fun c => if c = '\n' then '/' else c)

/-- One discovered skill's metadata. -/
structure SkillInfo where
  path : List String
  description : String
  has_scripts : Bool
  has_references : Bool
  has_assets : Bool
deriving DecidableEq, Repr

/-- The frontmatter `description:` extraction of `discover_skills`: inside
`text[3:text.find("---", 3)]`, the first line whose stripped form starts
with `description:` yields the text after the first colon, stripped, with
`>`/`-` characters stripped from both ends, stripped again. -/
def descFrom (text : String) : String :=
  if pyStartsWith text.data threeDashes then
    match findSubFrom text.data threeDashes 3 with
    | some e =>
      let fm := pySlice text.data 3 e
      match (pySplitLines fm).find?
          (fun l => pyStartsWith (pyStrip l) "description:".data) with
      | some l =>
        String.mk (pyStrip (pyStripChars (pyStrip ((afterFirstChar ':' l).getD []))
          ['>', '-']))
      | none => ""
    | none => ""
  else ""

/-- The metadata record built for one discovered skill. -/
def skillInfoOf (repo : VFS) (group skill_name : String) (skill_md : List String) :
    SkillInfo :=
  let description :=
    match repo.readText skill_md with
    | some text => descFrom text
    | none => ""
  { path := [group, skill_name]
    description := String.mk (description.data.take 120)
    has_scripts := repo.isDirAt [group, skill_name, "scripts"] &&
      (repo.childFileNames [group, skill_name, "scripts"]).any
        (fun n => pyEndsWith n.data ".py".data)
    has_references := repo.isDirAt [group, skill_name, "references"] &&
      (repo.childFileNames [group, skill_name, "references"]).any
        (fun n => pyEndsWith n.data ".md".data)
    has_assets := repo.isDirAt [group, skill_name, "assets"] &&
      (repo.childNames [group, skill_name, "assets"]).any (fun e => e.1 ≠ ".gitkeep") }

/-- Nested dict update `skills[group][skill_name] = info`. -/
def addSkill (skills : List (String × List (String × SkillInfo)))
    (group skill_name : String) (info : SkillInfo) :
    List (String × List (String × SkillInfo)) :=
  match getA skills group with
  | some gd => setA skills group (setA gd skill_name info)
  | none => skills ++ [(group, [(skill_name, info)])]

/-- Embedding of `discover_skills`: every path named `SKILL.md`, in sorted
order, grouped as `group → skill name → info`; paths under `assets`,
`node_modules` or `.git`, and too-shallow paths, are skipped. -/
def discover_skills (repo : VFS) : List (String × List (String × SkillInfo)) :=
  let mds := sortStable (fun a b => ¬ lexLt (joinSlash b) (joinSlash a))
    ((repo.entries.map Prod.fst).filter (fun p => lastComponent p = "SKILL.md"))
  mds.foldl (fun skills p =>
    if p.contains "assets" || p.contains "node_modules" || p.contains ".git" ||
        p.length < 2 then skills
    else
      match p with
      | group :: skill_name :: _ =>
        addSkill skills group skill_name (skillInfoOf repo group skill_name p)
      | _ => skills) []

/-- One manifest entry for an installed skill. -/
structure InstEntry where
  group : String
  path : List String
  installed_at : String
  updated_at : String
  auto_update : Bool
deriving DecidableEq, Repr

/-- The `.claude-skills.json` manifest. -/
structure Manifest where
  installed : List (String × InstEntry)
  auto_update : Bool
  source : String
deriving DecidableEq, Repr

/-- What `load_manifest` returns when the manifest file is missing or
unparsable. -/
def defaultManifest : Manifest :=
  ⟨[], false, "https://github.com/borghei/Claude-Skills"⟩

/-- The target directory's state. -/
structure TargetState where
  dirs : List (String × List String)
  manifest : Option Manifest
deriving DecidableEq, Repr

/-- The search loop of `cmd_install`: the first group (in insertion order)
whose skill dict contains the name. -/
def findSkill : List (String × List (String × SkillInfo)) → String →
    Option (String × SkillInfo)
  | [], _ => none
  | (g, gd) :: rest, name =>
    match getA gd name with
    | some info => some (g, info)
    | none => findSkill rest name

/-- Embedding of `cmd_install` (agent selection only fixes the target
directory, which the state already is; `now` is the ISO timestamp). -/
def cmd_install (repo : VFS) (st : TargetState) (skill_name : String)
    (auto_update force : Bool) (now : String) : TargetState × Nat :=
  match findSkill (discover_skills repo) skill_name with
  | none => (st, 1)
  | some (found_group, found_info) =>
    let manifest := st.manifest.getD defaultManifest
    if manifest.installed.any (fun e => e.2.group = found_group && e.1 ≠ skill_name) &&
        !force then
      (st, 1)
    else
      let manifest2 :=
        { manifest with
          installed := setA manifest.installed skill_name
            ⟨found_group, found_info.path, now, now, auto_update⟩
          auto_update := if auto_update then true else manifest.auto_update }
      ({ dirs := setA st.dirs (lastComponent found_info.path) found_info.path
         manifest := some manifest2 }, 0)

/-- Embedding of `cmd_uninstall`. -/
def cmd_uninstall (st : TargetState) (skill_name : String) : TargetState × Nat :=
  let manifest := st.manifest.getD defaultManifest
  if ¬ memA manifest.installed skill_name then (st, 1)
  else
    ({ dirs := eraseA st.dirs skill_name
       manifest := some { manifest with installed := eraseA manifest.installed skill_name } },
     0)

def repoEx : VFS := ⟨[(["g"], .dir), (["g", "skill-a"], .dir),
  (["g", "skill-a", "SKILL.md"],
    .file ⟨some "---\ndescription: >-\n  Skill A does things\n---\nbody", 40⟩),
  (["g", "skill-b"], .dir),
  (["g", "skill-b", "SKILL.md"], .file ⟨some "hello", 5⟩)]⟩

def stEx : TargetState := ⟨[("skill-a", ["g", "skill-a"])],
  some ⟨[("skill-b", ⟨"g", ["g", "skill-b"], "t", "t", false⟩)], false,
    "https://github.com/borghei/Claude-Skills"⟩⟩

/-! ## Lemmas and theorems for the claims -/

/-- C6: for every input string the two hand-rolled frontmatter parsers are
total Lean functions (so they terminate and never raise), and whenever the
input does not start with the `---` delimiter (the Python guard
`content.startswith("---")`) or no later line strips to a closing `---`,
both parsers return the empty mapping (the validator's parser additionally
reports the frontmatter as invalid). -/
theorem frontmatter_parsers_degrade_to_empty (content : String)
    (h : ¬ pyStartsWith content.data threeDashes = true ∨
         ¬ hasClosingDelim (splitChar '\n' content.data) = true) :
    parse_yaml_frontmatter_simple content = ([], false) ∧
    parse_yaml_frontmatter content = [] := by
  unfold parse_yaml_frontmatter_simple parse_yaml_frontmatter
  rcases h with h | h
  · simp [h]
  · by_cases hs : pyStartsWith content.data threeDashes = true <;> simp [h, hs]

/-- Witness for C6 at the concrete delimiter-less input "hello". -/
theorem frontmatter_parsers_degrade_to_empty_witness :
    parse_yaml_frontmatter_simple "hello" = ([], false) ∧
    parse_yaml_frontmatter "hello" = [] :=
  frontmatter_parsers_degrade_to_empty "hello" (Or.inl (by decide))

lemma sevOK_check_skill_md (fs : VFS) : ∀ c ∈ check_skill_md fs, sevOK c := by
  intro c hc
  simp only [check_skill_md] at hc
  split at hc <;> simp_all [VR, sevOK]

lemma sevOK_check_frontmatter (fs : VFS) : ∀ c ∈ check_frontmatter fs, sevOK c := by
  intro c hc
  simp only [check_frontmatter] at hc
  split at hc
  · split at hc
    · split at hc <;> simp_all [VR, sevOK]
    · simp_all [VR, sevOK]
  · simp at hc

lemma sevOK_check_description (fm : List (String × String)) :
    ∀ c ∈ check_description fm, sevOK c := by
  intro c hc
  simp only [check_description] at hc
  split at hc
  · rcases List.mem_append.1 hc with h | h
    · simp_all [VR, sevOK]
    · split at h <;> simp_all [VR, sevOK]
  · simp_all [VR, sevOK]

lemma sevOK_check_name (fm : List (String × String)) : ∀ c ∈ check_name fm, sevOK c := by
  intro c hc
  simp only [check_name] at hc
  split at hc <;> simp_all [VR, sevOK]

lemma sevOK_check_license (fm : List (String × String)) : ∀ c ∈ check_license fm, sevOK c := by
  intro c hc
  simp only [check_license] at hc
  split at hc <;> simp_all [VR, sevOK]

lemma sevOK_check_scripts (fs : VFS) : ∀ c ∈ check_scripts fs, sevOK c := by
  intro c hc
  simp only [check_scripts] at hc
  split at hc
  · split at hc <;> simp_all [VR, sevOK]
  · simp_all [VR, sevOK]

lemma sevOK_check_references (fs : VFS) : ∀ c ∈ check_references fs, sevOK c := by
  intro c hc
  simp only [check_references] at hc
  split at hc <;> simp_all [VR, sevOK]

lemma sevOK_check_assets (fs : VFS) : ∀ c ∈ check_assets fs, sevOK c := by
  intro c hc
  simp only [check_assets] at hc
  split at hc <;> simp_all [VR, sevOK]

lemma sevOK_check_requirements (fs : VFS) : ∀ c ∈ check_requirements fs, sevOK c := by
  intro c hc
  simp only [check_requirements] at hc
  split at hc
  · split at hc
    · split at hc <;> simp_all [VR, sevOK]
    · simp at hc
  · simp_all [VR, sevOK]

lemma sevOK_check_openai_exists (fs : VFS) : ∀ c ∈ check_openai_exists fs, sevOK c := by
  intro c hc
  simp only [check_openai_exists] at hc
  split at hc <;> simp_all [VR, sevOK]

lemma sevOK_check_openai_valid (fs : VFS) : ∀ c ∈ check_openai_valid fs, sevOK c := by
  intro c hc
  simp only [check_openai_valid] at hc
  split at hc
  · split at hc
    · split at hc <;> simp_all [VR, sevOK]
    · simp_all [VR, sevOK]
  · simp at hc

lemma sevOK_check_yaml_name (fs : VFS) (yaml : OYaml) (sn : String) :
    ∀ c ∈ check_yaml_name fs yaml sn, sevOK c := by
  intro c hc
  simp only [check_yaml_name] at hc
  split at hc
  · rcases List.mem_append.1 hc with h | h
    · simp_all [VR, sevOK]
    · split at h <;> simp_all [VR, sevOK]
  · split at hc <;> simp_all [VR, sevOK]

lemma sevOK_check_yaml_description (fs : VFS) (yaml : OYaml) :
    ∀ c ∈ check_yaml_description fs yaml, sevOK c := by
  intro c hc
  simp only [check_yaml_description] at hc
  split at hc
  · simp_all [VR, sevOK]
  · split at hc <;> simp_all [VR, sevOK]

lemma sevOK_check_yaml_instructions (fs : VFS) (yaml : OYaml) :
    ∀ c ∈ check_yaml_instructions fs yaml, sevOK c := by
  intro c hc
  simp only [check_yaml_instructions] at hc
  split at hc
  · split at hc <;> simp_all [VR, sevOK]
  · split at hc <;> simp_all [VR, sevOK]

lemma sevOK_check_tools (fs : VFS) (yaml : OYaml) : ∀ c ∈ check_tools fs yaml, sevOK c := by
  intro c hc
  simp only [check_tools] at hc
  split at hc
  · rcases List.mem_flatMap.1 hc with ⟨tool, _, hm⟩
    split at hm
    · split at hm <;> simp_all [VR, sevOK]
    · simp at hm
  · simp at hc

lemma sevOK_check_utf8 (fs : VFS) : ∀ c ∈ check_utf8 fs, sevOK c := by
  intro c hc
  simp only [check_utf8] at hc
  split at hc <;> (rw [List.mem_singleton] at hc; subst hc; simp [VR, sevOK])

lemma sevOK_check_size (fs : VFS) : ∀ c ∈ check_size fs, sevOK c := by
  intro c hc
  simp only [check_size] at hc
  split at hc <;> simp_all [VR, sevOK]

lemma sevOK_validateSkillChecks (fs : VFS) (dirName : String) :
    ∀ c ∈ validateSkillChecks fs dirName, sevOK c := by
  intro c hc
  simp only [validateSkillChecks, List.append_assoc, List.mem_append] at hc
  rcases hc with h|h|h|h|h|h|h|h|h|h|h|h|h|h|h|h|h
  · exact sevOK_check_skill_md fs c h
  · exact sevOK_check_frontmatter fs c h
  · exact sevOK_check_name _ c h
  · exact sevOK_check_description _ c h
  · exact sevOK_check_license _ c h
  · exact sevOK_check_scripts fs c h
  · exact sevOK_check_references fs c h
  · exact sevOK_check_assets fs c h
  · exact sevOK_check_requirements fs c h
  · exact sevOK_check_openai_exists fs c h
  · exact sevOK_check_openai_valid fs c h
  · exact sevOK_check_yaml_name fs _ _ c h
  · exact sevOK_check_yaml_description fs _ c h
  · exact sevOK_check_yaml_instructions fs _ c h
  · exact sevOK_check_tools fs _ c h
  · exact sevOK_check_utf8 fs c h
  · exact sevOK_check_size fs c h

lemma filter_partition (l : List ValidationResult) (h : ∀ c ∈ l, sevOK c) :
    (l.filter (fun c => c.passed)).length
      + (l.filter (fun c => !c.passed && c.severity == "error")).length
      + (l.filter (fun c => !c.passed && c.severity == "warning")).length
      + (l.filter (fun c => !c.passed && c.severity == "info")).length = l.length := by
  induction l with
  | nil => simp
  | cons c tl ih =>
    have hc := h c (List.mem_cons_self c tl)
    have htl := ih (fun x hx => h x (List.mem_cons_of_mem _ hx))
    rcases hc with h1 | h1 | h1 <;> cases hp : c.passed <;>
      simp [List.filter_cons, hp, h1] <;> omega

lemma summaryOf_total_def (l : List ValidationResult) : (summaryOf l).total_checks = l.length := rfl

lemma summaryOf_passed_def (l : List ValidationResult) :
    (summaryOf l).passed = (l.filter (fun c => c.passed)).length := rfl

lemma summaryOf_errors_def (l : List ValidationResult) :
    (summaryOf l).errors = (l.filter (fun c => !c.passed && c.severity == "error")).length := rfl

lemma summaryOf_warnings_def (l : List ValidationResult) :
    (summaryOf l).warnings = (l.filter (fun c => !c.passed && c.severity == "warning")).length := rfl

lemma summaryOf_info_def (l : List ValidationResult) :
    (summaryOf l).info = (l.filter (fun c => !c.passed && c.severity == "info")).length := rfl

/-- C1: a skill directory without `SKILL.md` gets a failed, error-severity
`skill_md_exists` check and an incompatible report, in strict and
non-strict mode alike (`strict` is universally quantified). -/
theorem validate_skill_missing_skill_md (fs : VFS) (dirName : String) (strict : Bool)
    (hr : validateSkillRaises fs = false)
    (h : fs.isFileAt ["SKILL.md"] = false) :
    (∃ c ∈ (validate_skill fs dirName strict).checks,
       c.check = "skill_md_exists" ∧ c.passed = false ∧ c.severity = "error") ∧
    (validate_skill fs dirName strict).compatible = false := by
  have he0 : (VR "skill_md_exists" "claude-code" false
      "SKILL.md not found - required for Claude Code" "error") ∈ check_skill_md fs := by
    simp [check_skill_md, h]
  have he : (VR "skill_md_exists" "claude-code" false
      "SKILL.md not found - required for Claude Code" "error") ∈ validateSkillChecks fs dirName :=
    List.mem_append_left _ (List.mem_append_left _ (List.mem_append_left _
      (List.mem_append_left _ (List.mem_append_left _ (List.mem_append_left _
      (List.mem_append_left _ (List.mem_append_left _ (List.mem_append_left _
      (List.mem_append_left _ (List.mem_append_left _ (List.mem_append_left _
      (List.mem_append_left _ (List.mem_append_left _ (List.mem_append_left _
      (List.mem_append_left _ he0)))))))))))))))
  have hfe : (VR "skill_md_exists" "claude-code" false
      "SKILL.md not found - required for Claude Code" "error") ∈
      (validateSkillChecks fs dirName).filter (fun c => !c.passed && c.severity == "error") :=
    List.mem_filter.2 ⟨he, by decide⟩
  have hlen : ((validateSkillChecks fs dirName).filter
      (fun c => !c.passed && c.severity == "error")).length ≠ 0 := by
    intro h0
    rw [List.length_eq_zero] at h0
    rw [h0] at hfe
    simp at hfe
  have hd := decide_eq_false hlen
  constructor
  · exact ⟨VR "skill_md_exists" "claude-code" false
      "SKILL.md not found - required for Claude Code" "error", he, rfl, rfl, rfl⟩
  · show compatibleOf (validateSkillChecks fs dirName) strict = false
    unfold compatibleOf
    cases strict
    · simpa using hd
    · simp only [if_pos]
      rw [hd]
      rfl

/-- Witness for C1 at the empty skill directory, in both modes. -/
theorem validate_skill_missing_skill_md_witness :
    (validateSkillRaises ⟨[]⟩ = false ∧ VFS.isFileAt ⟨[]⟩ ["SKILL.md"] = false) ∧
    ((∃ c ∈ (validate_skill ⟨[]⟩ "sample" false).checks,
        c.check = "skill_md_exists" ∧ c.passed = false ∧ c.severity = "error") ∧
      (validate_skill ⟨[]⟩ "sample" false).compatible = false) ∧
    ((∃ c ∈ (validate_skill ⟨[]⟩ "sample" true).checks,
        c.check = "skill_md_exists" ∧ c.passed = false ∧ c.severity = "error") ∧
      (validate_skill ⟨[]⟩ "sample" true).compatible = false) :=
  ⟨⟨by decide, by decide⟩,
    validate_skill_missing_skill_md ⟨[]⟩ "sample" false (by decide) (by decide),
    validate_skill_missing_skill_md ⟨[]⟩ "sample" true (by decide) (by decide)⟩

/-- C8: the report's `compatible` flag holds exactly when there are no
failed error-severity checks and, in strict mode only, additionally no
failed warning-severity checks. -/
theorem validate_skill_compatible_iff (fs : VFS) (dirName : String) (strict : Bool)
    (hr : validateSkillRaises fs = false) :
    (validate_skill fs dirName strict).compatible = true ↔
      (((validate_skill fs dirName strict).checks.filter
          (fun c => !c.passed && c.severity == "error")).length = 0 ∧
        (strict = true →
          ((validate_skill fs dirName strict).checks.filter
            (fun c => !c.passed && c.severity == "warning")).length = 0)) := by
  show compatibleOf (validateSkillChecks fs dirName) strict = true ↔
      (((validateSkillChecks fs dirName).filter
          (fun c => !c.passed && c.severity == "error")).length = 0 ∧
        (strict = true →
          ((validateSkillChecks fs dirName).filter
            (fun c => !c.passed && c.severity == "warning")).length = 0))
  unfold compatibleOf
  cases strict <;> simp

/-- Witness for C8 at the empty skill directory. -/
theorem validate_skill_compatible_iff_witness :
    validateSkillRaises ⟨[]⟩ = false ∧
    ((validate_skill ⟨[]⟩ "sample" false).compatible = true ↔
      (((validate_skill ⟨[]⟩ "sample" false).checks.filter
          (fun c => !c.passed && c.severity == "error")).length = 0 ∧
        (false = true →
          ((validate_skill ⟨[]⟩ "sample" false).checks.filter
            (fun c => !c.passed && c.severity == "warning")).length = 0))) :=
  ⟨by decide, validate_skill_compatible_iff ⟨[]⟩ "sample" false (by decide)⟩

/-- C9: the summary counts partition the checks list: passed plus failed
errors plus failed warnings plus failed infos equals `total_checks`, which
is the length of the checks list; every check carries one of the three
severities. -/
theorem validate_skill_summary_partition (fs : VFS) (dirName : String) (strict : Bool)
    (hr : validateSkillRaises fs = false) :
    ((validate_skill fs dirName strict).summary.passed
      + (validate_skill fs dirName strict).summary.errors
      + (validate_skill fs dirName strict).summary.warnings
      + (validate_skill fs dirName strict).summary.info
      = (validate_skill fs dirName strict).summary.total_checks)
    ∧ ((validate_skill fs dirName strict).summary.total_checks
        = (validate_skill fs dirName strict).checks.length)
    ∧ (∀ c ∈ (validate_skill fs dirName strict).checks,
        c.severity = "error" ∨ c.severity = "warning" ∨ c.severity = "info") := by
  have hsm : (validate_skill fs dirName strict).summary
      = summaryOf (validateSkillChecks fs dirName) := rfl
  have hch : (validate_skill fs dirName strict).checks = validateSkillChecks fs dirName := rfl
  rw [hsm, hch, summaryOf_total_def, summaryOf_passed_def, summaryOf_errors_def,
    summaryOf_warnings_def, summaryOf_info_def]
  exact ⟨filter_partition _ (sevOK_validateSkillChecks fs dirName), rfl,
    sevOK_validateSkillChecks fs dirName⟩

/-- Witness for C9 at the empty skill directory. -/
theorem validate_skill_summary_partition_witness :
    validateSkillRaises ⟨[]⟩ = false ∧
    ((validate_skill ⟨[]⟩ "sample" false).summary.passed
      + (validate_skill ⟨[]⟩ "sample" false).summary.errors
      + (validate_skill ⟨[]⟩ "sample" false).summary.warnings
      + (validate_skill ⟨[]⟩ "sample" false).summary.info
      = (validate_skill ⟨[]⟩ "sample" false).summary.total_checks)
    ∧ ((validate_skill ⟨[]⟩ "sample" false).summary.total_checks
        = (validate_skill ⟨[]⟩ "sample" false).checks.length)
    ∧ (∀ c ∈ (validate_skill ⟨[]⟩ "sample" false).checks,
        c.severity = "error" ∨ c.severity = "warning" ∨ c.severity = "info") :=
  ⟨by decide, validate_skill_summary_partition ⟨[]⟩ "sample" false (by decide)⟩

lemma insertStable_perm {α : Type} (le : α → α → Bool) (x : α) (l : List α) :
    List.Perm (insertStable le x l) (x :: l) := by
  induction l with
  | nil => simp [insertStable]
  | cons y ys ih =>
    simp only [insertStable]
    split
    · exact List.Perm.refl _
    · exact ((ih.cons y).trans (List.Perm.swap x y ys))

lemma sortStable_perm {α : Type} (le : α → α → Bool) (l : List α) :
    List.Perm (sortStable le l) l := by
  induction l with
  | nil => simp [sortStable]
  | cons x xs ih => exact (insertStable_perm le x (sortStable le xs)).trans (ih.cons x)

lemma timeout_title_ne (j : String) :
    (("No timeout on job " ++ squoteS ++ j ++ squoteS) == "No concurrency group") = false := by
  apply beq_eq_false_iff_ne.2
  intro h
  have h2 := congrArg (fun s => s.data.take 4) h
  simp only [String.data_append] at h2
  rw [List.append_assoc, List.append_assoc,
    List.take_append_of_le_length (by decide)] at h2
  revert h2
  decide

lemma countP_concurrency {cs : List Char} (h : containsSub cs "concurrency".data = false) :
    (concurrency_findings cs).countP concP = 1 := by
  simp [concurrency_findings, h, concP]

lemma countP_timeout (jobs : List (String × List Char)) :
    (timeout_findings jobs).countP concP = 0 := by
  rw [List.countP_eq_zero]
  intro f hf
  simp only [timeout_findings] at hf
  rcases List.mem_flatMap.1 hf with ⟨jb, _, hm⟩
  split at hm
  · rw [List.mem_singleton] at hm
    subst hm
    simp [concP, timeout_title_ne jb.1]
  · simp at hm

lemma countP_caching (cs : List Char) : (caching_findings cs).countP concP = 0 := by
  simp only [caching_findings]
  split <;> simp [concP]

lemma countP_checkout (cs : List Char) : (checkout_findings cs).countP concP = 0 := by
  simp only [checkout_findings]
  split
  · split <;> simp [concP]
  · simp

lemma countP_chain (jobs : List (String × List Char)) :
    (chain_findings jobs).countP concP = 0 := by
  simp only [chain_findings]
  split
  · split <;> simp [concP]
  · simp

lemma countP_path (cs : List Char) : (path_filter_findings cs).countP concP = 0 := by
  simp only [path_filter_findings]
  split <;> simp [concP]

lemma countP_deprecated (cs : List Char) : (deprecated_findings cs).countP concP = 0 := by
  rw [List.countP_eq_zero]
  intro f hf
  simp only [deprecated_findings] at hf
  rcases List.mem_flatMap.1 hf with ⟨pat, _, hm⟩
  split at hm
  · rw [List.mem_singleton] at hm
    subst hm
    simp [concP]
  · simp at hm

lemma countP_secret (cs : List Char) : (secret_findings cs).countP concP = 0 := by
  simp only [secret_findings]
  split <;> simp [concP]

lemma countP_permissions (cs : List Char) : (permissions_findings cs).countP concP = 0 := by
  simp only [permissions_findings]
  split <;> simp [concP]

lemma countP_ubuntu (cs : List Char) : (ubuntu_findings cs).countP concP = 0 := by
  simp only [ubuntu_findings]
  split <;> simp [concP]

theorem analyze_workflow_missing_concurrency (content : String)
    (h : containsSub content.data "concurrency".data = false) :
    (analyze_workflow_findings content).countP concP = 1 := by
  simp only [analyze_workflow_findings]
  rw [List.Perm.countP_eq concP (sortStable_perm _ _)]
  simp only [List.countP_append]
  rw [countP_concurrency h, countP_timeout, countP_caching, countP_checkout,
    countP_chain, countP_path, countP_deprecated, countP_secret,
    countP_permissions, countP_ubuntu]

/-- C3 counterexample: a workflow without any `concurrency` text whose one
job lacks `timeout-minutes` gets two warning/cost findings (the missing
concurrency group and the missing job timeout), not exactly one. -/
theorem analyze_workflow_cost_warning_counterexample :
    containsSub ("jobs:\n  build:\n    runs-on: ubuntu-latest" : String).data
      "concurrency".data = false ∧
    ¬ ((analyze_workflow_findings "jobs:\n  build:\n    runs-on: ubuntu-latest").countP
        (fun f => f.severity == "warning" && f.category == "cost") = 1) := by
  decide

/-- Witness for the amended C3 at the same concrete workflow. -/
theorem analyze_workflow_missing_concurrency_witness :
    containsSub ("jobs:\n  build:\n    runs-on: ubuntu-latest" : String).data
      "concurrency".data = false ∧
    (analyze_workflow_findings "jobs:\n  build:\n    runs-on: ubuntu-latest").countP
      concP = 1 :=
  ⟨by decide, analyze_workflow_missing_concurrency _ (by decide)⟩

/-- C7 counterexample: an invocation rejected by the argument parser (an
invalid `--format` value) exits with code 2, which is neither 0 nor 1. -/
theorem main_exit_code_counterexample :
    pipeline_main ["--format", "xml", "wf.yml"] ⟨[]⟩ = 2 ∧
    ¬ (pipeline_main ["--format", "xml", "wf.yml"] ⟨[]⟩ = 0 ∨
       pipeline_main ["--format", "xml", "wf.yml"] ⟨[]⟩ = 1) := by
  decide

/-- C7 as amended: every invocation of the two cited entry points exits
with code 0 (success), 1 (detected failure or uncaught error), or 2
(argument-parser usage error); no other exit codes occur. -/
theorem main_exit_codes_binary_or_usage (args : List String) (fs : VFS) :
    (pipeline_main args fs = 0 ∨ pipeline_main args fs = 1 ∨ pipeline_main args fs = 2) ∧
    (validator_main args fs = 0 ∨ validator_main args fs = 1 ∨ validator_main args fs = 2) := by
  constructor
  · unfold pipeline_main
    split
    · simp
    · simp
    · split
      · simp
      · split
        · split <;> simp
        · split
          · split <;> simp
          · simp
  · unfold validator_main
    split
    · simp
    · simp
    · split
      · simp
      · split
        · simp
        · split <;> simp

lemma metricsOf_within (t : String) (l : Nat) :
    (metricsOf t l).within_budget = decide (estimate_tokens t ≤ l) := rfl

lemma recs_completeness_critical_cat (c : List CompCheck) :
    ∀ r ∈ recs_completeness_critical c, r.category = "completeness" := by
  intro r hr
  simp only [recs_completeness_critical] at hr
  rcases List.mem_filterMap.1 hr with ⟨ck, _, hm⟩
  split at hm
  · rw [Option.some_inj] at hm
    subst hm
    rfl
  · simp at hm

lemma recs_completeness_high_cat (c : List CompCheck) :
    ∀ r ∈ recs_completeness_high c, r.category = "completeness" := by
  intro r hr
  simp only [recs_completeness_high] at hr
  rcases List.mem_filterMap.1 hr with ⟨ck, _, hm⟩
  split at hm
  · rw [Option.some_inj] at hm
    subst hm
    rfl
  · simp at hm

lemma recs_token_budget_empty (total limit : Nat) (h : total < limit) :
    recs_token_budget total limit = [] := by
  unfold recs_token_budget
  have h1 : ¬ (total > limit) := by omega
  have h2 : ¬ (total > limit * 2) := by omega
  simp [h1, h2]

lemma recs_redundancy_cat (rs : List RIssue) :
    ∀ r ∈ recs_redundancy rs, r.category = "redundancy" := by
  intro r hr
  simp only [recs_redundancy, List.mem_append] at hr
  rcases hr with (h | h) | h <;> (split at h <;> simp_all)

lemma recs_structure_cat (t : String) (ss : List MSection) :
    ∀ r ∈ recs_structure t ss, r.category = "structure" := by
  intro r hr
  simp only [recs_structure, List.mem_append] at hr
  rcases hr with h | h <;> (split at h <;> simp_all)

lemma recs_frontmatter_cat (t : String) :
    ∀ r ∈ recs_frontmatter t, r.category = "structure" := by
  intro r hr
  simp only [recs_frontmatter] at hr
  split at hr
  · split at hr
    · split at hr
      · split at hr <;> simp_all
      · simp at hr
    · simp at hr
  · simp at hr

lemma recs_format_cat (t : String) : ∀ r ∈ recs_format t, r.category = "format" := by
  intro r hr
  simp only [recs_format] at hr
  split at hr <;> simp_all

lemma recs_hier_cat (hs : List String) :
    ∀ r ∈ recs_hier hs, r.category = "hierarchical_loading" := by
  intro r hr
  simp only [recs_hier] at hr
  rcases List.mem_map.1 hr with ⟨s, _, hm⟩
  subst hm
  rfl

/-- C4: a CLAUDE.md whose estimated token count is strictly under the limit
is reported within budget and gets no `token_budget` recommendation. -/
theorem analyze_claudemd_within_budget (text : String) (token_limit : Nat)
    (h : estimate_tokens text < token_limit) :
    (analyze_claudemd text token_limit).metrics.within_budget = true ∧
    ∀ r ∈ (analyze_claudemd text token_limit).recommendations,
      r.category ≠ "token_budget" := by
  constructor
  · have hm : (analyze_claudemd text token_limit).metrics = metricsOf text token_limit := rfl
    rw [hm, metricsOf_within]
    exact decide_eq_true (Nat.le_of_lt h)
  · have hrec : (analyze_claudemd text token_limit).recommendations
      = recommendationsOf text token_limit := rfl
    rw [hrec]
    intro r hr
    simp only [recommendationsOf, generate_recommendations,
      recs_token_budget_empty _ _ h, List.append_nil, List.nil_append,
      List.mem_append] at hr
    rcases hr with ((((((h1 | h1) | h1) | h1) | h1) | h1) | h1)
    · rw [recs_completeness_critical_cat _ r h1]; decide
    · rw [recs_completeness_high_cat _ r h1]; decide
    · rw [recs_redundancy_cat _ r h1]; decide
    · rw [recs_structure_cat _ _ r h1]; decide
    · rw [recs_frontmatter_cat _ r h1]; decide
    · rw [recs_format_cat _ r h1]; decide
    · rw [recs_hier_cat _ r h1]; decide

/-- Witness for C4 at the two-character file "hi" with the default limit. -/
theorem analyze_claudemd_within_budget_witness :
    estimate_tokens "hi" < 6000 ∧
    ((analyze_claudemd "hi" 6000).metrics.within_budget = true ∧
      ∀ r ∈ (analyze_claudemd "hi" 6000).recommendations,
        r.category ≠ "token_budget") :=
  ⟨by decide, analyze_claudemd_within_budget "hi" 6000 (by decide)⟩

/-- C5: scaffolding `foo-bar` into an output directory without a `foo-bar`
entry creates exactly `SKILL.md`, `scripts/foo_bar_tool.py`,
`references/guide.md` and `assets/.gitkeep` (plus the three scaffold
directories) under `foo-bar` and succeeds; when `foo-bar` already exists
it fails with an error and the tree is unchanged. -/
theorem create_skill_directory_foo_bar (fs : GFS)
    (domain description version license category date : String) :
    (fs.existsAt ["foo-bar"] = false →
      ((create_skill_directory fs "foo-bar" domain description version license
          category date).2.success = true ∧
        (create_skill_directory fs "foo-bar" domain description version license
          category date).2.files_created =
          [["foo-bar", "SKILL.md"], ["foo-bar", "scripts", "foo_bar_tool.py"],
           ["foo-bar", "references", "guide.md"], ["foo-bar", "assets", ".gitkeep"]] ∧
        ((create_skill_directory fs "foo-bar" domain description version license
          category date).1.entries.map Prod.fst) =
          fs.entries.map Prod.fst ++
          [["foo-bar"], ["foo-bar", "scripts"], ["foo-bar", "references"],
           ["foo-bar", "assets"], ["foo-bar", "SKILL.md"],
           ["foo-bar", "scripts", "foo_bar_tool.py"],
           ["foo-bar", "references", "guide.md"], ["foo-bar", "assets", ".gitkeep"]])) ∧
    (fs.existsAt ["foo-bar"] = true →
      ((create_skill_directory fs "foo-bar" domain description version license
          category date).2.success = false ∧
        ((create_skill_directory fs "foo-bar" domain description version license
          category date).2.error).isSome = true ∧
        (create_skill_directory fs "foo-bar" domain description version license
          category date).1 = fs)) := by
  constructor
  · intro h
    refine ⟨?_, ?_, ?_⟩ <;>
      simp [create_skill_directory, h, replaceDashUnderscore, splitChar]
  · intro h
    refine ⟨?_, ?_, ?_⟩ <;> simp [create_skill_directory, h]

/-- Witness for C5: the fresh-directory arm at the empty tree and the
already-exists arm at a tree holding a `foo-bar` file. -/
theorem create_skill_directory_foo_bar_witness :
    (GFS.existsAt ⟨[]⟩ ["foo-bar"] = false →
      ((create_skill_directory ⟨[]⟩ "foo-bar" "engineering" "d" "1.0.0" "MIT"
          "" "May 2025").2.success = true ∧
        (create_skill_directory ⟨[]⟩ "foo-bar" "engineering" "d" "1.0.0" "MIT"
          "" "May 2025").2.files_created =
          [["foo-bar", "SKILL.md"], ["foo-bar", "scripts", "foo_bar_tool.py"],
           ["foo-bar", "references", "guide.md"], ["foo-bar", "assets", ".gitkeep"]] ∧
        ((create_skill_directory ⟨[]⟩ "foo-bar" "engineering" "d" "1.0.0" "MIT"
          "" "May 2025").1.entries.map Prod.fst) =
          (⟨[]⟩ : GFS).entries.map Prod.fst ++
          [["foo-bar"], ["foo-bar", "scripts"], ["foo-bar", "references"],
           ["foo-bar", "assets"], ["foo-bar", "SKILL.md"],
           ["foo-bar", "scripts", "foo_bar_tool.py"],
           ["foo-bar", "references", "guide.md"], ["foo-bar", "assets", ".gitkeep"]])) ∧
    (GFS.existsAt ⟨[(["foo-bar"], .dir)]⟩ ["foo-bar"] = true →
      ((create_skill_directory ⟨[(["foo-bar"], .dir)]⟩ "foo-bar" "engineering" "d"
          "1.0.0" "MIT" "" "May 2025").2.success = false ∧
        ((create_skill_directory ⟨[(["foo-bar"], .dir)]⟩ "foo-bar" "engineering" "d"
          "1.0.0" "MIT" "" "May 2025").2.error).isSome = true ∧
        (create_skill_directory ⟨[(["foo-bar"], .dir)]⟩ "foo-bar" "engineering" "d"
          "1.0.0" "MIT" "" "May 2025").1 = ⟨[(["foo-bar"], .dir)]⟩)) :=
  ⟨(create_skill_directory_foo_bar ⟨[]⟩ "engineering" "d" "1.0.0" "MIT" "" "May 2025").1,
   (create_skill_directory_foo_bar ⟨[(["foo-bar"], .dir)]⟩ "engineering" "d" "1.0.0"
      "MIT" "" "May 2025").2⟩

lemma getA_setA {α : Type} (l : List (String × α)) (k : String) (v : α) :
    getA (setA l k v) k = some v := by
  induction l with
  | nil => simp [setA, getA]
  | cons e tl ih =>
    simp only [setA]
    split
    · simp [getA]
    · simp only [getA]
      rw [if_neg (by assumption)]
      exact ih

lemma getA_eraseA {α : Type} (l : List (String × α)) (k : String) :
    getA (eraseA l k) k = none := by
  induction l with
  | nil => simp [eraseA, getA]
  | cons e tl ih =>
    simp only [eraseA, List.filter_cons]
    split
    · simp only [getA]
      rw [if_neg]
      · exact ih
      · intro he
        simp_all
    · exact ih

/-- C2 counterexample: with a stale `skill-a` directory in the target and a
same-group skill already recorded in the manifest, installing `skill-a`
(a skill present in the repository) aborts on the one-per-group check and
the uninstall aborts as not-installed, so the stale directory survives the
round trip. -/
theorem install_uninstall_roundtrip_counterexample :
    (findSkill (discover_skills repoEx) "skill-a").isSome = true ∧
    ¬ ((memA (((cmd_uninstall (cmd_install repoEx stEx "skill-a" false false "t2").1
          "skill-a").1.manifest.getD defaultManifest).installed) "skill-a" = false) ∧
       (getA ((cmd_uninstall (cmd_install repoEx stEx "skill-a" false false "t2").1
          "skill-a").1.dirs) "skill-a" = none)) := by
  decide

/-- C2 as amended: for every skill present in the repository, when the
install command succeeds (exit 0), the subsequent uninstall succeeds,
leaves the manifest's installed mapping without the skill's key, and
removes the skill's directory from the target. -/
theorem install_uninstall_roundtrip (repo : VFS) (st : TargetState)
    (skill_name : String) (auto force : Bool) (now g : String) (info : SkillInfo)
    (h1 : findSkill (discover_skills repo) skill_name = some (g, info))
    (h2 : (cmd_install repo st skill_name auto force now).2 = 0) :
    (cmd_uninstall (cmd_install repo st skill_name auto force now).1 skill_name).2 = 0 ∧
    memA (((cmd_uninstall (cmd_install repo st skill_name auto force now).1
        skill_name).1.manifest.getD defaultManifest).installed) skill_name = false ∧
    getA ((cmd_uninstall (cmd_install repo st skill_name auto force now).1
        skill_name).1.dirs) skill_name = none := by
  unfold cmd_install at h2 ⊢
  rw [h1] at h2 ⊢
  dsimp only at h2 ⊢
  split at h2
  next hcond => simp at h2
  next hcond =>
    rw [if_neg hcond]
    refine ⟨?_, ?_, ?_⟩ <;>
      simp [cmd_uninstall, memA, getA_setA, getA_eraseA]

/-- Witness for the amended C2: a clean target, where installing then
uninstalling `skill-a` round-trips. -/
theorem install_uninstall_roundtrip_witness :
    (findSkill (discover_skills repoEx) "skill-a" =
      some ("g", ⟨["g", "skill-a"], "", false, false, false⟩) ∧
     (cmd_install repoEx ⟨[], none⟩ "skill-a" false false "t2").2 = 0) ∧
    ((cmd_uninstall (cmd_install repoEx ⟨[], none⟩ "skill-a" false false "t2").1
        "skill-a").2 = 0 ∧
     memA (((cmd_uninstall (cmd_install repoEx ⟨[], none⟩ "skill-a" false false "t2").1
        "skill-a").1.manifest.getD defaultManifest).installed) "skill-a" = false ∧
     getA ((cmd_uninstall (cmd_install repoEx ⟨[], none⟩ "skill-a" false false "t2").1
        "skill-a").1.dirs) "skill-a" = none) :=
  ⟨⟨by decide, by decide⟩,
    install_uninstall_roundtrip repoEx ⟨[], none⟩ "skill-a" false false "t2" "g"
      ⟨["g", "skill-a"], "", false, false, false⟩ (by decide) (by decide)⟩

/-- C10: an install without `--force`, for a skill of a group that already
has a different skill recorded in the manifest, exits with status 1 and
leaves the state (manifest and target directory) exactly unchanged. -/
theorem cmd_install_group_conflict (repo : VFS) (st : TargetState)
    (skill_name : String) (auto : Bool) (now g : String) (info : SkillInfo)
    (h1 : findSkill (discover_skills repo) skill_name = some (g, info))
    (h2 : (st.manifest.getD defaultManifest).installed.any
      (fun e => e.2.group = g && e.1 ≠ skill_name) = true) :
    cmd_install repo st skill_name auto false now = (st, 1) := by
  unfold cmd_install
  rw [h1]
  dsimp only
  simp only [Bool.not_false, Bool.and_true, h2, ite_true]

/-- Witness for C10 at the concrete repository and a manifest holding the
same-group skill `skill-b`. -/
theorem cmd_install_group_conflict_witness :
    (findSkill (discover_skills repoEx) "skill-a" =
      some ("g", ⟨["g", "skill-a"], "", false, false, false⟩) ∧
     (stEx.manifest.getD defaultManifest).installed.any
      (fun e => e.2.group = "g" && e.1 ≠ "skill-a") = true) ∧
    cmd_install repoEx stEx "skill-a" false false "t2" = (stEx, 1) :=
  ⟨⟨by decide, by decide⟩,
    cmd_install_group_conflict repoEx stEx "skill-a" false "t2" "g"
      ⟨["g", "skill-a"], "", false, false, false⟩ (by decide) (by decide)⟩
